import Mathlib

/-!
Verification development for the mpv drmprime hwdec overlay/texture paths
(src/video/out/opengl/hwdec_drmprime_drm.c, hwdec_drmprime_egl.c,
hwdec_drmprime_wayland.c).

The C code is shallowly embedded: pure helpers become Lean functions, the
stateful presentation paths become explicit state passing over a `Priv`
(driver private data) record together with a `World` record that tracks the
externally visible resources (framebuffer ids, imported handle counts,
property blobs, decoded-image reference counts).  C `double` arithmetic is
modelled by exact rational arithmetic; C `double`-to-`int` conversion is
modelled by truncation toward zero.
-/

namespace Mpv

/-- `struct mp_rect` (int coordinates). -/
structure MpRect where
  x0 : Int
  y0 : Int
  x1 : Int
  y1 : Int
deriving DecidableEq, Repr

/-- C conversion of a `double` to `int`: truncation toward zero
(doubles are modelled as exact rationals). -/
def cTrunc (q : ℚ) : Int := if 0 ≤ q then ⌊q⌋ else -⌊-q⌋

/-- `MP_ALIGN_DOWN(x, 2)` = `x & ~1`, i.e. rounding down to an even value
(two's complement bit-clear is flooring division by 2 times 2). -/
def alignDown2 (x : Int) : Int := 2 * (x / 2)

/-- `MP_ALIGN_UP(x, 2)` = `(x + 1) & ~1`. -/
def alignUp2 (x : Int) : Int := 2 * ((x + 1) / 2)

/-- `scale_dst_rect` from hwdec_drmprime_drm.c: uniform fit scaling of the
logical rectangle `src` from source dimensions to the physical display,
followed by centering.  The `double` intermediates are exact rationals; each
assignment to an `int` field or variable truncates toward zero. -/
def scale_dst_rect (display_w display_h source_w source_h : Int) (src : MpRect) : MpRect :=
  let hscale : ℚ := (display_w : ℚ) / (source_w : ℚ)
  let vscale : ℚ := (display_h : ℚ) / (source_h : ℚ)
  let s : ℚ := if hscale ≤ vscale then hscale else vscale
  let offset_x : Int := cTrunc (((display_w : ℚ) - s * (source_w : ℚ)) / 2)
  let offset_y : Int := cTrunc (((display_h : ℚ) - s * (source_h : ℚ)) / 2)
  { x0 := cTrunc ((src.x0 : ℚ) * s) + offset_x
    y0 := cTrunc ((src.y0 : ℚ) * s) + offset_y
    x1 := cTrunc ((src.x1 : ℚ) * s) + offset_x
    y1 := cTrunc ((src.y1 : ℚ) * s) + offset_y }

/-- Rectangle with exact rational coordinates (for the idealized spec
computation). -/
structure RatRect where
  x0 : ℚ
  y0 : ℚ
  x1 : ℚ
  y1 : ℚ
deriving DecidableEq

/-- Modelled from the spec (§4.4 Geometry/Scaling): `computeDestination`
computes the minimum of the two physical/source axis ratios, scales the
logical rectangle's coordinates by it and centers by adding
`(physicalDim - scale * sourceDim) / 2` to both edges on each axis,
in exact arithmetic. -/
def computeDestination (display_w display_h source_w source_h : ℚ) (r : RatRect) : RatRect :=
  let s : ℚ := min (display_w / source_w) (display_h / source_h)
  let offset_x : ℚ := (display_w - s * source_w) / 2
  let offset_y : ℚ := (display_h - s * source_h) / 2
  { x0 := r.x0 * s + offset_x
    y0 := r.y0 * s + offset_y
    x1 := r.x1 * s + offset_x
    y1 := r.y1 * s + offset_y }

lemma cTrunc_of_nonneg {q : ℚ} (h : 0 ≤ q) : cTrunc q = ⌊q⌋ := by
  simp [cTrunc, h]

lemma cTrunc_le {q : ℚ} (h : 0 ≤ q) : (cTrunc q : ℚ) ≤ q := by
  rw [cTrunc_of_nonneg h]
  exact Int.floor_le q

lemma lt_cTrunc {q : ℚ} (h : 0 ≤ q) : q - 1 < (cTrunc q : ℚ) := by
  rw [cTrunc_of_nonneg h]
  exact Int.sub_one_lt_floor q

lemma cTrunc_add_bounds {a b : ℚ} (ha : 0 ≤ a) (hb : 0 ≤ b) :
    a + b - 2 < ((cTrunc a + cTrunc b : Int) : ℚ) ∧ ((cTrunc a + cTrunc b : Int) : ℚ) ≤ a + b := by
  have h1 := cTrunc_le ha
  have h2 := cTrunc_le hb
  have h3 := lt_cTrunc ha
  have h4 := lt_cTrunc hb
  constructor
  · push_cast
    linarith
  · push_cast
    linarith

/-- A truncated code coordinate is within rounding slack of its exact spec value. -/
def closeTo (c : Int) (v : ℚ) : Prop := v - 2 < (c : ℚ) ∧ (c : ℚ) ≤ v

/-- C4: for every physical display size, positive source size and nonnegative
logical destination rectangle, each coordinate produced by `scale_dst_rect`
equals the corresponding coordinate of the spec's reference
`computeDestination` up to the slack introduced by the two `double`-to-`int`
truncations; and a 1920x1080 source on a 1280x800 display with logical rect
(0,0)-(1920,1080) yields exactly (0,40)-(1280,760) under both definitions. -/
theorem scale_dst_rect_fits_spec :
    (∀ (dw dh sw sh : Int) (src : MpRect),
      0 < sw → 0 < sh → 0 ≤ dw → 0 ≤ dh →
      0 ≤ src.x0 → 0 ≤ src.y0 → 0 ≤ src.x1 → 0 ≤ src.y1 →
      closeTo (scale_dst_rect dw dh sw sh src).x0
        (computeDestination dw dh sw sh ⟨src.x0, src.y0, src.x1, src.y1⟩).x0 ∧
      closeTo (scale_dst_rect dw dh sw sh src).y0
        (computeDestination dw dh sw sh ⟨src.x0, src.y0, src.x1, src.y1⟩).y0 ∧
      closeTo (scale_dst_rect dw dh sw sh src).x1
        (computeDestination dw dh sw sh ⟨src.x0, src.y0, src.x1, src.y1⟩).x1 ∧
      closeTo (scale_dst_rect dw dh sw sh src).y1
        (computeDestination dw dh sw sh ⟨src.x0, src.y0, src.x1, src.y1⟩).y1) ∧
    scale_dst_rect 1280 800 1920 1080 ⟨0, 0, 1920, 1080⟩ = ⟨0, 40, 1280, 760⟩ ∧
    computeDestination 1280 800 1920 1080 ⟨0, 0, 1920, 1080⟩ = ⟨0, 40, 1280, 760⟩ := by
  refine ⟨?_, ?_, ?_⟩
  · intro dw dh sw sh src hsw hsh hdw hdh hx0 hy0 hx1 hy1
    have hsw' : (0 : ℚ) < (sw : ℚ) := by exact_mod_cast hsw
    have hsh' : (0 : ℚ) < (sh : ℚ) := by exact_mod_cast hsh
    have hdw' : (0 : ℚ) ≤ (dw : ℚ) := by exact_mod_cast hdw
    have hdh' : (0 : ℚ) ≤ (dh : ℚ) := by exact_mod_cast hdh
    set s : ℚ := min ((dw : ℚ) / (sw : ℚ)) ((dh : ℚ) / (sh : ℚ)) with hs
    have hmins : (if (dw : ℚ) / (sw : ℚ) ≤ (dh : ℚ) / (sh : ℚ)
        then (dw : ℚ) / (sw : ℚ) else (dh : ℚ) / (sh : ℚ)) = s := (min_def _ _).symm
    have hs0 : 0 ≤ s := by
      apply le_min
      · positivity
      · positivity
    have hsww : s * (sw : ℚ) ≤ (dw : ℚ) := by
      have h1 : s ≤ (dw : ℚ) / (sw : ℚ) := min_le_left _ _
      calc s * (sw : ℚ) ≤ ((dw : ℚ) / (sw : ℚ)) * (sw : ℚ) := by
            exact mul_le_mul_of_nonneg_right h1 (le_of_lt hsw')
        _ = (dw : ℚ) := div_mul_cancel₀ _ (ne_of_gt hsw')
    have hshh : s * (sh : ℚ) ≤ (dh : ℚ) := by
      have h1 : s ≤ (dh : ℚ) / (sh : ℚ) := min_le_right _ _
      calc s * (sh : ℚ) ≤ ((dh : ℚ) / (sh : ℚ)) * (sh : ℚ) := by
            exact mul_le_mul_of_nonneg_right h1 (le_of_lt hsh')
        _ = (dh : ℚ) := div_mul_cancel₀ _ (ne_of_gt hsh')
    have hox : (0 : ℚ) ≤ ((dw : ℚ) - s * (sw : ℚ)) / 2 := by linarith
    have hoy : (0 : ℚ) ≤ ((dh : ℚ) - s * (sh : ℚ)) / 2 := by linarith
    have hax0 : (0 : ℚ) ≤ (src.x0 : ℚ) * s := by
      apply mul_nonneg _ hs0
      exact_mod_cast hx0
    have hay0 : (0 : ℚ) ≤ (src.y0 : ℚ) * s := by
      apply mul_nonneg _ hs0
      exact_mod_cast hy0
    have hax1 : (0 : ℚ) ≤ (src.x1 : ℚ) * s := by
      apply mul_nonneg _ hs0
      exact_mod_cast hx1
    have hay1 : (0 : ℚ) ≤ (src.y1 : ℚ) * s := by
      apply mul_nonneg _ hs0
      exact_mod_cast hy1
    simp only [scale_dst_rect, computeDestination, hmins, closeTo]
    exact ⟨cTrunc_add_bounds hax0 hox, cTrunc_add_bounds hay0 hoy,
      cTrunc_add_bounds hax1 hox, cTrunc_add_bounds hay1 hoy⟩
  · simp only [scale_dst_rect, cTrunc]
    norm_num
  · simp only [computeDestination]
    norm_num

/-- Witness for `scale_dst_rect_fits_spec`: its hypotheses hold at the spec's
own example input, and the approximation bound follows there by applying the
theorem. -/
theorem scale_dst_rect_fits_spec_witness :
    (0 : Int) < 1920 ∧ (0 : Int) < 1080 ∧
    closeTo (scale_dst_rect 1280 800 1920 1080 ⟨0, 0, 1920, 1080⟩).y0
      (computeDestination 1280 800 1920 1080 ⟨0, 0, 1920, 1080⟩).y0 :=
  ⟨by decide, by decide,
   (scale_dst_rect_fits_spec.1 1280 800 1920 1080 ⟨0, 0, 1920, 1080⟩
     (by decide) (by decide) (by decide) (by decide)
     (by decide) (by decide) (by decide) (by decide)).2.1⟩

/-!
## Texture-import path (hwdec_drmprime_egl.c)

`struct priv` holds `EGLImageKHR images[MAX_NUM_PLANES]`; an image handle is
modelled as `Option Nat` (`none` = `EGL_NO_IMAGE_KHR`/0).  The EGL driver
state is a supply of fresh image handles plus the set of currently live
images.  Texture objects (`gl_textures`) are created at `reinit` and are not
part of the per-frame lifecycle, so they are not modelled here.
-/

/-- One plane of an `AVDRMLayerDescriptor`: the referenced object's file
descriptor plus byte offset and pitch (the data fed into the image-creation
attribute list). -/
structure EglPlane where
  fd : Nat
  offset : Nat
  pitch : Nat
deriving DecidableEq

/-- One `AVDRMLayerDescriptor`: a pixel format plus its ordered planes. -/
structure EglLayer where
  format : Nat
  planes : List EglPlane
deriving DecidableEq

/-- The layers of an `AVDRMFrameDescriptor` as consumed by `map_frame`. -/
structure EglDesc where
  layers : List EglLayer
deriving DecidableEq

/-- The per-frame part of `struct priv` of hwdec_drmprime_egl.c: the
`images[MAX_NUM_PLANES]` array. -/
structure EglPriv where
  images : List (Option Nat)
deriving DecidableEq

/-- EGL driver state: fresh-handle supply and the set of live images. -/
structure EglWorld where
  nextImg : Nat
  liveImgs : Finset Nat
deriving DecidableEq

/-- Observable EGL calls: `DestroyImageKHR` and (successful)
`CreateImageKHR`. -/
inductive EglEv where
  | destroyImg (i : Nat)
  | createImg (i : Nat)
deriving DecidableEq

/-- The slot loop of `unmap_frame`: destroy each non-null image, then null
the slot unconditionally. -/
def unmapList : List (Option Nat) → EglWorld → List (Option Nat) × EglWorld × List EglEv
  | [], w => ([], w, [])
  | none :: rest, w =>
    let r := unmapList rest w
    (none :: r.1, r.2.1, r.2.2)
  | some i :: rest, w =>
    let r := unmapList rest {w with liveImgs := w.liveImgs.erase i}
    (none :: r.1, r.2.1, EglEv.destroyImg i :: r.2.2)

/-- `unmap_frame` from hwdec_drmprime_egl.c. -/
def unmap_frame (p : EglPriv) (w : EglWorld) : EglPriv × EglWorld × List EglEv :=
  let r := unmapList p.images w
  (⟨r.1⟩, r.2.1, r.2.2)

/-- The layer loop of `map_frame`: for layer index `l`, `CreateImageKHR` with
the layer's attributes (its outcome is given by the `fails` oracle; a fresh
handle is allocated on success), store the result in `images[l]`, and take
the error path when the result is `EGL_NO_IMAGE_KHR`.  The subsequent
texture binding has no resource lifecycle and is not modelled.  Returns the
final state, the events, and whether the loop completed. -/
def mapLayers : List EglLayer → Nat → EglPriv → EglWorld → (Nat → Bool) → EglPriv × EglWorld × List EglEv × Bool
  | [], _, p, w, _ => (p, w, [], true)
  | _layer :: rest, l, p, w, fails =>
    if fails l then
      (⟨p.images.set l none⟩, w, [], false)
    else
      let im := w.nextImg
      let p1 : EglPriv := ⟨p.images.set l (some im)⟩
      let w1 : EglWorld := ⟨w.nextImg + 1, insert im w.liveImgs⟩
      let r := mapLayers rest (l + 1) p1 w1 fails
      (r.1, r.2.1, EglEv.createImg im :: r.2.2.1, r.2.2.2)

/-- Outcome of a `map_frame` call. -/
structure EglResult where
  ret : Int
  priv : EglPriv
  world : EglWorld
  events : List EglEv

/-- `map_frame` from hwdec_drmprime_egl.c: a NULL descriptor goes to the
`err` label (which unmaps and returns -1); otherwise unmap the previous
generation, create one image per layer, and on any layer failure go to
`err`, destroying everything created so far. -/
def map_frame (p : EglPriv) (w : EglWorld) (desc : Option EglDesc) (fails : Nat → Bool) : EglResult :=
  match desc with
  | none =>
    let u := unmap_frame p w
    ⟨-1, u.1, u.2.1, u.2.2⟩
  | some d =>
    let u := unmap_frame p w
    let m := mapLayers d.layers 0 u.1 u.2.1 fails
    if m.2.2.2 then ⟨0, m.1, m.2.1, u.2.2 ++ m.2.2.1⟩
    else
      let u2 := unmap_frame m.1 m.2.1
      ⟨-1, u2.1, u2.2.1, u.2.2 ++ m.2.2.1 ++ u2.2.2⟩

/-- Well-formedness of the texture path's state: the live-image set is
exactly the images held in the slots, those are pairwise distinct, and all
are below the fresh-handle supply. -/
def EglInv (p : EglPriv) (w : EglWorld) : Prop :=
  w.liveImgs = (p.images.filterMap id).toFinset ∧
  (p.images.filterMap id).Nodup ∧
  ∀ i ∈ p.images.filterMap id, i < w.nextImg

lemma unmapList_fst (xs : List (Option Nat)) (w : EglWorld) :
    (unmapList xs w).1 = List.replicate xs.length none := by
  induction xs generalizing w with
  | nil => rfl
  | cons x rest ih =>
    cases x <;> simp [unmapList, List.replicate_succ, ih]

lemma unmapList_events (xs : List (Option Nat)) (w : EglWorld) :
    (unmapList xs w).2.2 = (xs.filterMap id).map EglEv.destroyImg := by
  induction xs generalizing w with
  | nil => rfl
  | cons x rest ih =>
    cases x <;> simp [unmapList, ih]

lemma unmapList_nextImg (xs : List (Option Nat)) (w : EglWorld) :
    (unmapList xs w).2.1.nextImg = w.nextImg := by
  induction xs generalizing w with
  | nil => rfl
  | cons x rest ih =>
    cases x <;> simp [unmapList, ih]

lemma unmapList_live (xs : List (Option Nat)) (w : EglWorld)
    (hlive : w.liveImgs = (xs.filterMap id).toFinset)
    (hnodup : (xs.filterMap id).Nodup) :
    (unmapList xs w).2.1.liveImgs = ∅ := by
  induction xs generalizing w with
  | nil => simpa [unmapList] using hlive
  | cons x rest ih =>
    cases x with
    | none =>
      simp only [unmapList]
      apply ih
      · simpa using hlive
      · simpa using hnodup
    | some i =>
      have hfm : (some i :: rest).filterMap id = i :: rest.filterMap id := by simp
      rw [hfm] at hlive hnodup
      have hni : i ∉ rest.filterMap id := (List.nodup_cons.mp hnodup).1
      simp only [unmapList]
      apply ih
      · show w.liveImgs.erase i = (rest.filterMap id).toFinset
        rw [hlive, List.toFinset_cons, Finset.erase_insert (by simpa using hni)]
      · exact (List.nodup_cons.mp hnodup).2

lemma filterMap_id_replicate_none (n : Nat) :
    (List.replicate n (none : Option Nat)).filterMap id = [] := by
  induction n with
  | zero => rfl
  | succ k ih => simp [List.replicate_succ, ih]

/-- After `unmap_frame` on a well-formed state, every slot is null, nothing
is live any more, and the well-formedness is re-established. -/
lemma unmap_frame_spec (p : EglPriv) (w : EglWorld) (h : EglInv p w) :
    (unmap_frame p w).1.images = List.replicate p.images.length none ∧
    (unmap_frame p w).2.1.liveImgs = ∅ ∧
    (unmap_frame p w).2.2 = (p.images.filterMap id).map EglEv.destroyImg ∧
    EglInv (unmap_frame p w).1 (unmap_frame p w).2.1 := by
  obtain ⟨h1, h2, _h3⟩ := h
  have hfst : (unmap_frame p w).1.images = List.replicate p.images.length none := by
    simp [unmap_frame, unmapList_fst]
  have hlive : (unmap_frame p w).2.1.liveImgs = ∅ := by
    simp only [unmap_frame]
    exact unmapList_live _ _ h1 h2
  have hev : (unmap_frame p w).2.2 = (p.images.filterMap id).map EglEv.destroyImg := by
    simp only [unmap_frame]
    exact unmapList_events _ _
  refine ⟨hfst, hlive, hev, ?_, ?_, ?_⟩
  · rw [hlive, hfst, filterMap_id_replicate_none]
    rfl
  · rw [hfst, filterMap_id_replicate_none]
    exact List.nodup_nil
  · rw [hfst, filterMap_id_replicate_none]
    intro i hi
    simp at hi

lemma filterMap_set_none (xs : List (Option Nat)) (l : Nat)
    (hnone : ∀ o ∈ xs.drop l, o = none) :
    (xs.set l none).filterMap id = xs.filterMap id := by
  induction xs generalizing l with
  | nil => simp
  | cons x rest ih =>
    cases l with
    | zero =>
      have hx : x = none := hnone x (by simp)
      subst hx
      simp
    | succ l' =>
      have hrec := ih l' (by
        intro o ho
        exact hnone o (by simpa using ho))
      cases x <;> simp [List.filterMap_cons, hrec]

lemma filterMap_set_some (xs : List (Option Nat)) (l : Nat) (v : Nat)
    (hl : l < xs.length) (hnone : ∀ o ∈ xs.drop l, o = none) :
    (xs.set l (some v)).filterMap id = xs.filterMap id ++ [v] := by
  induction xs generalizing l with
  | nil => simp at hl
  | cons x rest ih =>
    cases l with
    | zero =>
      have hx : x = none := hnone x (by simp)
      have hrest : rest.filterMap id = [] := by
        rw [List.filterMap_eq_nil_iff]
        intro o ho
        exact hnone o (by simp [ho])
      subst hx
      simp [List.filterMap_cons, hrest]
    | succ l' =>
      have hrec := ih l' (by simpa using hl) (by
        intro o ho
        exact hnone o (by simpa using ho))
      cases x <;> simp [List.filterMap_cons, hrec]

/-- Behaviour of the layer loop: state well-formedness is preserved, the
loop succeeds exactly when every layer's image creation succeeds, and all
its events are creations of the (fresh) images it installed. -/
lemma mapLayers_spec (layers : List EglLayer) :
    ∀ (l : Nat) (p : EglPriv) (w : EglWorld) (fails : Nat → Bool),
    EglInv p w →
    (∀ o ∈ p.images.drop l, o = none) →
    l + layers.length ≤ p.images.length →
    EglInv (mapLayers layers l p w fails).1 (mapLayers layers l p w fails).2.1 ∧
    (mapLayers layers l p w fails).1.images.length = p.images.length ∧
    ((mapLayers layers l p w fails).2.2.2 = true ↔ ∀ k, k < layers.length → fails (l + k) = false) ∧
    ∃ created : List Nat,
      (mapLayers layers l p w fails).2.2.1 = created.map EglEv.createImg ∧
      (mapLayers layers l p w fails).1.images.filterMap id = p.images.filterMap id ++ created ∧
      ((mapLayers layers l p w fails).2.2.2 = true → created.length = layers.length) := by
  induction layers with
  | nil =>
    intro l p w fails hinv _hnone _hlen
    refine ⟨hinv, rfl, by simp [mapLayers], [], by simp [mapLayers], by simp [mapLayers], by simp [mapLayers]⟩
  | cons layer rest ih =>
    intro l p w fails hinv hnone hlen
    obtain ⟨hlive, hnodup, hbound⟩ := hinv
    by_cases hf : fails l = true
    · have hfm : ((p.images.set l none).filterMap id) = p.images.filterMap id :=
        filterMap_set_none _ _ hnone
      simp only [mapLayers, hf, if_true]
      refine ⟨⟨by simpa [hfm] using hlive, by simpa [hfm] using hnodup,
          by simpa [hfm] using hbound⟩, by simp, ?_, [], by simp, by simp [hfm], by simp⟩
      constructor
      · intro habs
        exact absurd habs (by simp)
      · intro hall
        have := hall 0 (by simp)
        simp [hf] at this
    · have hf' : fails l = false := by
        cases hfb : fails l
        · rfl
        · exact absurd hfb hf
      have hlenc : l + (rest.length + 1) ≤ p.images.length := by
        simpa [List.length_cons] using hlen
      have hllt : l < p.images.length := by omega
      have hfm1 : ((p.images.set l (some w.nextImg)).filterMap id)
          = p.images.filterMap id ++ [w.nextImg] :=
        filterMap_set_some _ _ _ hllt hnone
      have hinv1 : EglInv ⟨p.images.set l (some w.nextImg)⟩
          ⟨w.nextImg + 1, insert w.nextImg w.liveImgs⟩ := by
        refine ⟨?_, ?_, ?_⟩
        · show insert w.nextImg w.liveImgs = _
          rw [hfm1, List.toFinset_append, hlive]
          ext x
          simp [or_comm]
        · show ((p.images.set l (some w.nextImg)).filterMap id).Nodup
          rw [hfm1, List.nodup_append]
          refine ⟨hnodup, List.nodup_singleton _, ?_⟩
          intro a ha hb
          have h1 : a < w.nextImg := hbound a ha
          have h2 : a = w.nextImg := by simpa using hb
          omega
        · show ∀ i ∈ (p.images.set l (some w.nextImg)).filterMap id, i < w.nextImg + 1
          rw [hfm1]
          intro i hi
          rcases List.mem_append.mp hi with h | h
          · have := hbound i h
            omega
          · have : i = w.nextImg := by simpa using h
            omega
      have hnone1 : ∀ o ∈ (p.images.set l (some w.nextImg)).drop (l + 1), o = none := by
        intro o ho
        rw [List.drop_set] at ho
        simp only [Nat.lt_succ_self, if_pos] at ho
        exact hnone o (List.drop_subset_drop_left _ (by omega) ho)
      have hlen1 : (l + 1) + rest.length ≤ (p.images.set l (some w.nextImg)).length := by
        simp only [List.length_set]
        omega
      obtain ⟨ihinv, ihlen, ihiff, created', ihev, ihfm, ihclen⟩ :=
        ih (l + 1) ⟨p.images.set l (some w.nextImg)⟩
          ⟨w.nextImg + 1, insert w.nextImg w.liveImgs⟩ fails hinv1 hnone1 hlen1
      simp only [mapLayers, hf', Bool.false_eq_true, if_false]
      refine ⟨ihinv, by simpa using ihlen, ?_, w.nextImg :: created', by simp [ihev], ?_, ?_⟩
      · constructor
        · intro hok k hk
          cases k with
          | zero => simpa using hf'
          | succ k' =>
            have := ihiff.mp hok k' (by simpa using hk)
            have harith : l + 1 + k' = l + (k' + 1) := by omega
            rwa [harith] at this
        · intro hall
          apply ihiff.mpr
          intro k hk
          have := hall (k + 1) (by simpa using hk)
          have harith : l + (k + 1) = l + 1 + k := by omega
          rwa [harith] at this
      · rw [ihfm, hfm1, List.append_assoc]
        rfl
      · intro hok
        have := ihclen hok
        simp [this]

lemma unmapList_replicate_none (n : Nat) (w : EglWorld) :
    unmapList (List.replicate n none) w = (List.replicate n none, w, []) := by
  induction n generalizing w with
  | zero => rfl
  | succ k ih => simp [List.replicate_succ, unmapList, ih]

/-- C10: `unmap_frame` destroys each non-null image exactly once (one
destroy call per occupied slot, in slot order) and nulls every slot; an
immediately repeated call destroys nothing and changes nothing, so no image
is ever destroyed twice through this interface. -/
theorem unmap_frame_idempotent (p : EglPriv) (w : EglWorld) :
    (unmap_frame p w).1.images = List.replicate p.images.length none ∧
    (unmap_frame p w).2.2 = (p.images.filterMap id).map EglEv.destroyImg ∧
    (unmap_frame (unmap_frame p w).1 (unmap_frame p w).2.1).2.2 = [] ∧
    (unmap_frame (unmap_frame p w).1 (unmap_frame p w).2.1).1 = (unmap_frame p w).1 ∧
    (unmap_frame (unmap_frame p w).1 (unmap_frame p w).2.1).2.1 = (unmap_frame p w).2.1 := by
  have hfst : (unmapList p.images w).1 = List.replicate p.images.length none :=
    unmapList_fst _ _
  refine ⟨by simp [unmap_frame, hfst], by simp [unmap_frame, unmapList_events], ?_, ?_, ?_⟩
  · simp [unmap_frame, hfst, unmapList_replicate_none]
  · simp [unmap_frame, hfst, unmapList_replicate_none]
  · simp [unmap_frame, hfst, unmapList_replicate_none]

/-- C7: a `map_frame` call on a well-formed state first destroys the whole
previous generation of images (the leading events are exactly the destroys
of the previously held images), succeeds exactly when every layer's image
creation succeeds, leaves all slots null and nothing live on failure (no
partial bindings), and on success holds exactly one image per layer. -/
theorem map_frame_one_generation (p : EglPriv) (w : EglWorld) (d : EglDesc) (fails : Nat → Bool)
    (hinv : EglInv p w) (hlen : d.layers.length ≤ p.images.length) :
    ((map_frame p w (some d) fails).ret = 0 ↔ ∀ k, k < d.layers.length → fails k = false) ∧
    (∃ t, (map_frame p w (some d) fails).events
        = (p.images.filterMap id).map EglEv.destroyImg ++ t ∧
      ∀ i, EglEv.destroyImg i ∈ t → EglEv.createImg i ∈ t) ∧
    ((map_frame p w (some d) fails).ret = -1 →
      (map_frame p w (some d) fails).priv.images = List.replicate p.images.length none ∧
      (map_frame p w (some d) fails).world.liveImgs = ∅) ∧
    ((map_frame p w (some d) fails).ret = 0 →
      (map_frame p w (some d) fails).world.liveImgs.card = d.layers.length) := by
  obtain ⟨hu1, _hu2, hu3, huinv⟩ := unmap_frame_spec p w hinv
  have hdrop : ∀ o ∈ (unmap_frame p w).1.images.drop 0, o = none := by
    intro o ho
    rw [List.drop_zero, hu1] at ho
    exact List.eq_of_mem_replicate ho
  have hlen0 : 0 + d.layers.length ≤ (unmap_frame p w).1.images.length := by
    rw [hu1, List.length_replicate]
    omega
  obtain ⟨minv, mlen, miff, created, mev, mfm, mclen⟩ :=
    mapLayers_spec d.layers 0 (unmap_frame p w).1 (unmap_frame p w).2.1 fails huinv hdrop hlen0
  have hufm : (unmap_frame p w).1.images.filterMap id = [] := by
    rw [hu1]
    exact filterMap_id_replicate_none _
  rw [hufm, List.nil_append] at mfm
  have miff' : (mapLayers d.layers 0 (unmap_frame p w).1 (unmap_frame p w).2.1 fails).2.2.2 = true
      ↔ ∀ k, k < d.layers.length → fails k = false := by
    simpa using miff
  have hmplen : (mapLayers d.layers 0 (unmap_frame p w).1 (unmap_frame p w).2.1 fails).1.images.length
      = p.images.length := by
    rw [mlen, hu1, List.length_replicate]
  by_cases hok : (mapLayers d.layers 0 (unmap_frame p w).1 (unmap_frame p w).2.1 fails).2.2.2 = true
  · have heq : map_frame p w (some d) fails
        = ⟨0, (mapLayers d.layers 0 (unmap_frame p w).1 (unmap_frame p w).2.1 fails).1,
             (mapLayers d.layers 0 (unmap_frame p w).1 (unmap_frame p w).2.1 fails).2.1,
             (unmap_frame p w).2.2
               ++ (mapLayers d.layers 0 (unmap_frame p w).1 (unmap_frame p w).2.1 fails).2.2.1⟩ := by
      simp only [map_frame, hok, if_true]
    refine ⟨?_, ?_, ?_, ?_⟩
    · rw [heq]
      simpa using miff'.mp hok
    · refine ⟨(mapLayers d.layers 0 (unmap_frame p w).1 (unmap_frame p w).2.1 fails).2.2.1, ?_, ?_⟩
      · rw [heq, hu3]
      · intro i hi
        rw [mev] at hi
        rcases List.mem_map.mp hi with ⟨a, _ha, hcontr⟩
        exact absurd hcontr (by simp)
    · rw [heq]
      intro hcontr
      simp at hcontr
    · rw [heq]
      intro _
      obtain ⟨mlive, mnodup, _⟩ := minv
      show (mapLayers d.layers 0 (unmap_frame p w).1 (unmap_frame p w).2.1 fails).2.1.liveImgs.card = _
      rw [mlive, mfm, List.toFinset_card_of_nodup (by rw [← mfm]; exact mnodup), mclen hok]
  · have heq : map_frame p w (some d) fails
        = ⟨-1, (unmap_frame (mapLayers d.layers 0 (unmap_frame p w).1 (unmap_frame p w).2.1 fails).1
                  (mapLayers d.layers 0 (unmap_frame p w).1 (unmap_frame p w).2.1 fails).2.1).1,
              (unmap_frame (mapLayers d.layers 0 (unmap_frame p w).1 (unmap_frame p w).2.1 fails).1
                  (mapLayers d.layers 0 (unmap_frame p w).1 (unmap_frame p w).2.1 fails).2.1).2.1,
              (unmap_frame p w).2.2
                ++ (mapLayers d.layers 0 (unmap_frame p w).1 (unmap_frame p w).2.1 fails).2.2.1
                ++ (unmap_frame (mapLayers d.layers 0 (unmap_frame p w).1 (unmap_frame p w).2.1 fails).1
                    (mapLayers d.layers 0 (unmap_frame p w).1 (unmap_frame p w).2.1 fails).2.1).2.2⟩ := by
      have hokf : (mapLayers d.layers 0 (unmap_frame p w).1 (unmap_frame p w).2.1 fails).2.2.2
          = false := by
        cases hcase : (mapLayers d.layers 0 (unmap_frame p w).1 (unmap_frame p w).2.1 fails).2.2.2
        · rfl
        · exact absurd hcase hok
      simp only [map_frame, hokf, Bool.false_eq_true, if_false]
    obtain ⟨hv1, hv2, hv3, _hvinv⟩ :=
      unmap_frame_spec (mapLayers d.layers 0 (unmap_frame p w).1 (unmap_frame p w).2.1 fails).1
        (mapLayers d.layers 0 (unmap_frame p w).1 (unmap_frame p w).2.1 fails).2.1 minv
    refine ⟨?_, ?_, ?_, ?_⟩
    · rw [heq]
      constructor
      · intro hcontr
        simp at hcontr
      · intro hall
        exact absurd (miff'.mpr hall) hok
    · refine ⟨(mapLayers d.layers 0 (unmap_frame p w).1 (unmap_frame p w).2.1 fails).2.2.1
          ++ (unmap_frame (mapLayers d.layers 0 (unmap_frame p w).1 (unmap_frame p w).2.1 fails).1
              (mapLayers d.layers 0 (unmap_frame p w).1 (unmap_frame p w).2.1 fails).2.1).2.2, ?_, ?_⟩
      · rw [heq, hu3, List.append_assoc]
      · intro i hi
        rcases List.mem_append.mp hi with h | h
        · rw [mev] at h
          rcases List.mem_map.mp h with ⟨a, _ha, hcontr⟩
          exact absurd hcontr (by simp)
        · rw [hv3, mfm] at h
          rcases List.mem_map.mp h with ⟨a, ha, hda⟩
          have hai : a = i := by
            cases hda
            rfl
          apply List.mem_append.mpr
          left
          rw [mev]
          apply List.mem_map.mpr
          exact ⟨i, hai ▸ ha, rfl⟩
    · rw [heq]
      intro _
      refine ⟨?_, hv2⟩
      show (unmap_frame _ _).1.images = _
      rw [hv1, hmplen]
    · rw [heq]
      intro hcontr
      simp at hcontr

/-- Concrete state for exercising `map_frame_one_generation`: one image of a
previous generation live in slot 0, and a two-layer NV12-style descriptor. -/
def eglWitPriv : EglPriv := ⟨[some 5, none, none, none]⟩

def eglWitWorld : EglWorld := ⟨6, {5}⟩

def eglWitDesc : EglDesc := ⟨[⟨842094158, [⟨3, 0, 256⟩]⟩, ⟨825316434, [⟨3, 1024, 256⟩]⟩]⟩

/-- Witness for `map_frame_one_generation`: its hypotheses hold at a
concrete state, and the success condition follows there by applying the
theorem. -/
theorem map_frame_one_generation_witness :
    EglInv eglWitPriv eglWitWorld ∧ eglWitDesc.layers.length ≤ eglWitPriv.images.length ∧
    ((map_frame eglWitPriv eglWitWorld (some eglWitDesc) (fun _ => false)).ret = 0 ↔
      ∀ k, k < eglWitDesc.layers.length → (fun _ => false : Nat → Bool) k = false) :=
  ⟨by unfold EglInv; decide, by decide,
   (map_frame_one_generation eglWitPriv eglWitWorld eglWitDesc (fun _ => false)
     (by unfold EglInv; decide) (by decide)).1⟩

/-!
## Atomic-overlay path (hwdec_drmprime_drm.c)

`struct priv` is embedded as `Priv`; the DRM driver side (framebuffer ids,
imported GEM handle counts, property blobs) and the decoded-image reference
counts live in `World`.  `drm_prime_create_framebuffer`,
`drm_prime_destroy_framebuffer` (video/out/drm_prime.c) and
`mp_image_setrefp` (video/mp_image.c) are not part of the sources at hand
and are modelled from the spec where marked.
-/

/-- `enum mp_supported_eotf_type`. -/
def MP_TRADITIONAL_GAMMA_SDR : Nat := 0

def MP_TRADITIONAL_GAMMA_HDR : Nat := 1

def MP_SMPTE_ST2084 : Nat := 2

def MP_HLG : Nat := 3

/-- `enum mp_v4l2_colorspace` members used here. -/
def V4L2_COLORSPACE_DEFAULT : Nat := 0

def V4L2_COLORSPACE_BT2020 : Nat := 10

/-- `enum mp_drm_hdmi_output_type` members used here. -/
def MP_DRM_HDMI_OUTPUT_DEFAULT_RGB : Nat := 0

def MP_DRM_HDMI_OUTPUT_YCBCR_HQ : Nat := 4

/-- Transfer characteristics (`mp_csp_trc`) distinguished by this code. -/
inductive Trc where
  | pq
  | hlg
  | other
deriving DecidableEq, Repr

/-- A chromaticity coordinate as returned by the colorspace collaborator. -/
structure CspCoord where
  x : ℚ
  y : ℚ
deriving DecidableEq, Repr

/-- `struct mp_csp_primaries` (red, green, blue, white point). -/
structure CspPrimaries where
  red : CspCoord
  green : CspCoord
  blue : CspCoord
  white : CspCoord
deriving DecidableEq, Repr

/-- `struct mp_hdr_static_metadata`. -/
structure MpHdrStaticMetadata where
  eotf : Nat
  type : Nat
  display_primaries_x : Nat × Nat × Nat
  display_primaries_y : Nat × Nat × Nat
  white_point_x : Nat
  white_point_y : Nat
  max_mastering_display_luminance : Nat
  min_mastering_display_luminance : Nat
  max_fall : Nat
  max_cll : Nat
  min_cll : Nat
deriving DecidableEq, Repr

/-- An all-zero `mp_hdr_static_metadata` (`talloc_zero`). -/
def zeroHdrMetadata : MpHdrStaticMetadata :=
  ⟨0, 0, (0, 0, 0), (0, 0, 0), 0, 0, 0, 0, 0, 0, 0⟩

/-- C cast of an in-range nonnegative `double` to `uint16_t`. -/
def u16 (q : ℚ) : Nat := (cTrunc q).toNat % 65536

/-- `struct drm_prime_framebuffer`: the framebuffer id plus its imported GEM
handles, abstracted to their count. -/
structure DrmPrimeFramebuffer where
  fb_id : Nat
  nHandles : Nat
deriving DecidableEq, Repr

/-- The all-zero framebuffer struct (`memset(..., 0, ...)`). -/
def zeroFb : DrmPrimeFramebuffer := ⟨0, 0⟩

/-- `struct drm_frame`: a framebuffer and the decoded image (by id) kept
alive for it. -/
structure DrmFrame where
  fb : DrmPrimeFramebuffer
  image : Option Nat
deriving DecidableEq, Repr

def zeroFrame : DrmFrame := ⟨zeroFb, none⟩

/-- The part of an `AVDRMFrameDescriptor` that determines resource usage for
this path: the number of distinct memory objects (one GEM import each). -/
structure FrameDesc where
  nObjects : Nat
deriving DecidableEq, Repr

/-- `struct mp_image` as consumed by this path: identity (for reference
counting), color parameters, and the DRM descriptor carried in
`planes[0]` (`none` models a NULL descriptor).  `prims` is the output of
`mp_get_csp_primaries` for the image's primaries (external colorspace
collaborator, spec §6). -/
structure MpImage where
  id : Nat
  gamma : Trc
  space : Trc
  prims : CspPrimaries
  desc : Option FrameDesc
deriving DecidableEq, Repr

/-- External DRM/driver state: fresh framebuffer ids, the set of live
framebuffers, the total number of live imported (GEM) handles, fresh blob
ids, live property blobs, and the decoded-image reference counts. -/
structure World where
  nextFb : Nat
  liveFbs : Finset Nat
  liveHandles : Nat
  nextBlob : Nat
  liveBlobs : Finset Nat
  refs : Nat → Nat

/-- `struct priv` of hwdec_drmprime_drm.c (the `ctx` pointer is implicit:
this embedding models the path after a successful `init`, where it is
non-NULL). -/
structure Priv where
  current_frame : DrmFrame
  last_frame : DrmFrame
  old_frame : DrmFrame
  hdr_metadata : Option MpHdrStaticMetadata
  hdr_blob_id : Nat
  panel_metadata : MpHdrStaticMetadata
  src : MpRect
  dst : MpRect
  display_w : Int
  display_h : Int
  crtc_id : Nat

/-- Observable native calls of the overlay path. -/
inductive Ev where
  | fbDestroyed (id : Nat)
  | planeDisabled
  | legacySetPlane (fb : Nat)
  | hdrBlobCreated (blob : Nat)
  | hdrBlobDestroyed (blob : Nat)
deriving DecidableEq, Repr

/-- The DRM objects whose properties `overlay_frame` writes. -/
inductive DrmObj where
  | videoPlane
  | connector
deriving DecidableEq, Repr

/-- One `drm_object_set_property` call on the caller-supplied atomic
request. -/
structure PropWrite where
  obj : DrmObj
  name : String
  value : Int
deriving DecidableEq, Repr

/-- Increment a decoded image's reference count. -/
def incRef (w : World) (i : Nat) : World :=
  {w with refs := fun j => if j = i then w.refs j + 1 else w.refs j}

/-- Decrement a decoded image's reference count. -/
def decRef (w : World) (i : Nat) : World :=
  {w with refs := fun j => if j = i then w.refs j - 1 else w.refs j}

/-- Modelled from the spec (§3 PresentedFrame; video/mp_image.c is not part
of src/): shared-ownership reference assignment — release the slot's old
reference, take a reference on the new value (if any), and store it, so the
count of an image always equals the number of slots holding it. -/
def mp_image_setrefp (w : World) (slot img : Option Nat) : World × Option Nat :=
  let w1 := match slot with
    | some i => decRef w i
    | none => w
  let w2 := match img with
    | some i => incRef w1 i
    | none => w1
  (w2, img)

/-- Modelled from the spec (§4.1, §7 TeardownError; video/out/drm_prime.c is
not part of src/): destroying a framebuffer removes it and closes all of its
imported handles, and is a no-op on an empty (zero) handle. -/
def drm_prime_destroy_framebuffer (w : World) (fb : DrmPrimeFramebuffer) : World × List Ev :=
  if fb.fb_id = 0 then (w, [])
  else ({w with liveFbs := w.liveFbs.erase fb.fb_id, liveHandles := w.liveHandles - fb.nHandles},
        [Ev.fbDestroyed fb.fb_id])

/-- Modelled from the spec (§4.1 Buffer Import; video/out/drm_prime.c is not
part of src/): on success, import one native handle per descriptor object
and create a fresh framebuffer id; on failure, release anything partially
imported and leave the output struct zeroed (`none` result). -/
def drm_prime_create_framebuffer (w : World) (desc : FrameDesc) (fails : Bool) :
    Option (World × DrmPrimeFramebuffer) :=
  if fails then none
  else some ({w with nextFb := w.nextFb + 1,
                     liveFbs := insert w.nextFb w.liveFbs,
                     liveHandles := w.liveHandles + desc.nObjects},
             ⟨w.nextFb, desc.nObjects⟩)

/-- `set_current_frame`: destroy the framebuffer of the slot being evicted
(`old_frame`), then shift the ring (`old ← last ← current`), re-targeting
each slot's decoded-image reference, and finally install the new frame (or
an empty frame) as current. -/
def set_current_frame (p : Priv) (w : World) (frame : Option DrmFrame) : Priv × World × List Ev :=
  let d := drm_prime_destroy_framebuffer w p.old_frame.fb
  let r1 := mp_image_setrefp d.1 p.old_frame.image p.last_frame.image
  let r2 := mp_image_setrefp r1.1 p.last_frame.image p.current_frame.image
  match frame with
  | some f =>
    let r3 := mp_image_setrefp r2.1 p.current_frame.image f.image
    ({p with old_frame := ⟨p.last_frame.fb, r1.2⟩,
             last_frame := ⟨p.current_frame.fb, r2.2⟩,
             current_frame := ⟨f.fb, r3.2⟩}, r3.1, d.2)
  | none =>
    let r3 := mp_image_setrefp r2.1 p.current_frame.image none
    ({p with old_frame := ⟨p.last_frame.fb, r1.2⟩,
             last_frame := ⟨p.current_frame.fb, r2.2⟩,
             current_frame := ⟨zeroFb, r3.2⟩}, r3.1, d.2)

/-- Number of occupied slots contributed by one ring slot. -/
def frameWeight (f : DrmFrame) : Nat := if f.fb.fb_id = 0 then 0 else 1

/-- Number of occupied ring slots. -/
def ringWeight (p : Priv) : Nat :=
  frameWeight p.current_frame + frameWeight p.last_frame + frameWeight p.old_frame

/-- The body of the `while (p->old_frame.fb.fb_id) set_current_frame(hw,
NULL);` drain loop, with an explicit iteration budget. -/
def drainGo : Nat → Priv → World → Priv × World × List Ev
  | 0, p, w => (p, w, [])
  | fuel + 1, p, w =>
    if p.old_frame.fb.fb_id = 0 then (p, w, [])
    else
      let r := set_current_frame p w none
      let r2 := drainGo fuel r.1 r.2.1
      (r2.1, r2.2.1, r.2.2 ++ r2.2.2)

/-- The drain loop of `overlay_frame`'s end-of-stream branch.  Every
iteration strictly decreases `ringWeight`, so a budget of `ringWeight p`
always suffices; `drainGo_exits_by_guard` certifies that the loop exits
through its guard (`old_frame.fb.fb_id == 0`), never by budget
exhaustion, so this equals the unbounded `while` loop. -/
def drainLoop (p : Priv) (w : World) : Priv × World × List Ev := drainGo (ringWeight p) p w

/-- `disable_video_plane`: allocate a separate atomic request, clear the
video plane's FB_ID/CRTC_ID association and commit it immediately
(nonblocking, its own commit).  If the allocation fails nothing is done. -/
def disable_video_plane (allocOk : Bool) : List Ev :=
  if allocOk then [Ev.planeDisabled] else []

/-- `get_hdr_metadata` for a non-NULL image: a zero-initialized struct whose
EOTF classifies the transfer curve and whose primaries/white point are the
collaborator's chromaticities in 0.00002 fixed point. -/
def get_hdr_metadata (img : MpImage) : MpHdrStaticMetadata :=
  { zeroHdrMetadata with
    eotf := match img.gamma with
      | Trc.pq => MP_SMPTE_ST2084
      | Trc.hlg => MP_HLG
      | Trc.other => MP_TRADITIONAL_GAMMA_SDR
    display_primaries_x :=
      (u16 (img.prims.red.x * 50000), u16 (img.prims.green.x * 50000),
       u16 (img.prims.blue.x * 50000))
    display_primaries_y :=
      (u16 (img.prims.red.y * 50000), u16 (img.prims.green.y * 50000),
       u16 (img.prims.blue.y * 50000))
    white_point_x := u16 (img.prims.white.x * 50000)
    white_point_y := u16 (img.prims.white.y * 50000) }

/-- `mp_get_hdr_colorspace`. -/
def mp_get_hdr_colorspace (trc : Trc) : Nat :=
  match trc with
  | Trc.pq => V4L2_COLORSPACE_BT2020
  | Trc.hlg => V4L2_COLORSPACE_BT2020
  | Trc.other => V4L2_COLORSPACE_DEFAULT

/-- Outcomes of the native calls an `overlay_frame` invocation makes. -/
structure Env where
  drmParams : Bool
  atomicRequest : Bool
  osdSize : Option (Int × Int)
  fbCreateFails : Bool
  setPlaneFails : Bool
  disableAllocOk : Bool
deriving DecidableEq, Repr

/-- Result of one `overlay_frame` call: return code, updated state, the
property writes added to the caller-supplied atomic request, and the other
native calls made. -/
structure OvResult where
  ret : Int
  priv : Priv
  world : World
  props : List PropWrite
  events : List Ev

/-- `overlay_frame` from hwdec_drmprime_drm.c. -/
def overlay_frame (p : Priv) (w : World) (e : Env) (hw_image : Option MpImage)
    (src dst : MpRect) : OvResult :=
  if e.drmParams = false then
    -- failed to retrieve drm params from native resources
    ⟨-1, p, w, [], []⟩
  else
    match hw_image with
    | some img =>
      let pdst : MpRect :=
        match e.osdSize with
        | some wh => scale_dst_rect p.display_w p.display_h wh.1 wh.2 dst
        | none => dst
      let p1 := {p with dst := pdst, src := src}
      match img.desc with
      | none =>
        -- NULL descriptor: the whole `if (desc)` body is skipped and the
        -- zero-initialized next_frame (still carrying the image) is installed
        let r := set_current_frame p1 w (some ⟨zeroFb, some img.id⟩)
        ⟨0, r.1, r.2.1, [], r.2.2⟩
      | some desc =>
        let srcw := p1.src.x1 - p1.src.x0
        let srch := p1.src.y1 - p1.src.y0
        let dstw := alignUp2 (p1.dst.x1 - p1.dst.x0)
        let dsth := alignUp2 (p1.dst.y1 - p1.dst.y0)
        match drm_prime_create_framebuffer w desc e.fbCreateFails with
        | none =>
          -- fail: destroying the still-zeroed next_frame.fb is a no-op
          ⟨-1, p1, w, [], []⟩
        | some fbw =>
          if e.atomicRequest then
            let baseProps : List PropWrite :=
              [⟨DrmObj.videoPlane, "FB_ID", (fbw.2.fb_id : Int)⟩,
               ⟨DrmObj.videoPlane, "CRTC_ID", (p1.crtc_id : Int)⟩,
               ⟨DrmObj.videoPlane, "SRC_X", p1.src.x0 * 65536⟩,
               ⟨DrmObj.videoPlane, "SRC_Y", p1.src.y0 * 65536⟩,
               ⟨DrmObj.videoPlane, "SRC_W", srcw * 65536⟩,
               ⟨DrmObj.videoPlane, "SRC_H", srch * 65536⟩,
               ⟨DrmObj.videoPlane, "CRTC_X", alignDown2 p1.dst.x0⟩,
               ⟨DrmObj.videoPlane, "CRTC_Y", alignDown2 p1.dst.y0⟩,
               ⟨DrmObj.videoPlane, "CRTC_W", dstw⟩,
               ⟨DrmObj.videoPlane, "CRTC_H", dsth⟩,
               ⟨DrmObj.videoPlane, "ZPOS", 0⟩]
            let pwh : Priv × World × List Ev :=
              match p1.hdr_metadata with
              | none =>
                ({p1 with hdr_metadata := some (get_hdr_metadata img),
                          hdr_blob_id := fbw.1.nextBlob},
                 {fbw.1 with nextBlob := fbw.1.nextBlob + 1,
                             liveBlobs := insert fbw.1.nextBlob fbw.1.liveBlobs},
                 [Ev.hdrBlobCreated fbw.1.nextBlob])
              | some _ => (p1, fbw.1, [])
            let hdrProps : List PropWrite :=
              match pwh.1.hdr_metadata with
              | some md =>
                (if pwh.1.panel_metadata.eotf ≠ 0 then
                  -- send hdr to panel only if it supports hdr
                  [⟨DrmObj.connector, "HDR_SOURCE_METADATA", (pwh.1.hdr_blob_id : Int)⟩,
                   ⟨DrmObj.videoPlane, "EOTF", (md.eotf : Int)⟩]
                 else
                  [⟨DrmObj.videoPlane, "EOTF",
                    ((if md.eotf ≠ 0 then MP_TRADITIONAL_GAMMA_HDR
                      else MP_TRADITIONAL_GAMMA_SDR) : Int)⟩])
                ++ [⟨DrmObj.videoPlane, "COLOR_SPACE", (mp_get_hdr_colorspace img.space : Int)⟩,
                    ⟨DrmObj.connector, "HDMI_OUTPUT_FORMAT", (MP_DRM_HDMI_OUTPUT_YCBCR_HQ : Int)⟩]
              | none =>
                [⟨DrmObj.videoPlane, "EOTF", (MP_TRADITIONAL_GAMMA_SDR : Int)⟩,
                 ⟨DrmObj.videoPlane, "COLOR_SPACE", (V4L2_COLORSPACE_DEFAULT : Int)⟩]
            let r := set_current_frame pwh.1 pwh.2.1 (some ⟨fbw.2, some img.id⟩)
            ⟨0, r.1, r.2.1, baseProps ++ hdrProps, pwh.2.2 ++ r.2.2⟩
          else
            if e.setPlaneFails then
              -- fail: release the framebuffer created for this frame
              let dw := drm_prime_destroy_framebuffer fbw.1 fbw.2
              ⟨-1, p1, dw.1, [], dw.2⟩
            else
              let r := set_current_frame p1 fbw.1 (some ⟨fbw.2, some img.id⟩)
              ⟨0, r.1, r.2.1, [], Ev.legacySetPlane fbw.2.fb_id :: r.2.2⟩
    | none =>
      let ev1 := disable_video_plane e.disableAllocOk
      let d := drainLoop p w
      let props : List PropWrite :=
        if e.atomicRequest then
          [⟨DrmObj.videoPlane, "EOTF", (MP_TRADITIONAL_GAMMA_SDR : Int)⟩,
           ⟨DrmObj.videoPlane, "COLOR_SPACE", (V4L2_COLORSPACE_DEFAULT : Int)⟩,
           ⟨DrmObj.connector, "HDMI_OUTPUT_FORMAT", (MP_DRM_HDMI_OUTPUT_DEFAULT_RGB : Int)⟩,
           ⟨DrmObj.connector, "HDR_SOURCE_METADATA", 0⟩]
        else
          -- with no caller-supplied request the property helper rejects the calls
          []
      let pwh : Priv × World × List Ev :=
        match d.1.hdr_metadata with
        | some _ =>
          ({d.1 with hdr_metadata := none, hdr_blob_id := 0},
           {d.2.1 with liveBlobs := d.2.1.liveBlobs.erase d.1.hdr_blob_id},
           [Ev.hdrBlobDestroyed d.1.hdr_blob_id])
        | none => (d.1, d.2.1, [])
      let r := set_current_frame pwh.1 pwh.2.1 (some ⟨zeroFb, none⟩)
      ⟨0, r.1, r.2.1, props, ev1 ++ d.2.2 ++ pwh.2.2 ++ r.2.2⟩

/-- One decoder-timeline call to the overlay path. -/
structure Op where
  env : Env
  hw_image : Option MpImage
  src : MpRect
  dst : MpRect
deriving DecidableEq, Repr

/-- Run a sequence of `overlay_frame` calls, accumulating the events. -/
def runTrace : List Op → Priv → World → Priv × World × List Ev
  | [], p, w => (p, w, [])
  | op :: rest, p, w =>
    let r := overlay_frame p w op.env op.hw_image op.src op.dst
    let t := runTrace rest r.priv r.world
    (t.1, t.2.1, r.events ++ t.2.2)

/-- The private data after a successful `init` (`talloc_zero`ed, with the
panel metadata and mode geometry read during init). -/
def initPriv (panel : MpHdrStaticMetadata) (dispW dispH : Int) (crtc : Nat) : Priv :=
  { current_frame := zeroFrame, last_frame := zeroFrame, old_frame := zeroFrame,
    hdr_metadata := none, hdr_blob_id := 0, panel_metadata := panel,
    src := ⟨0, 0, 0, 0⟩, dst := ⟨0, 0, 0, 0⟩,
    display_w := dispW, display_h := dispH, crtc_id := crtc }

/-- The driver world before any presentation. -/
def initWorld : World := ⟨1, ∅, 0, 1, ∅, fun _ => 0⟩

@[simp] lemma setrefp_liveFbs (w : World) (s i : Option Nat) :
    (mp_image_setrefp w s i).1.liveFbs = w.liveFbs := by
  cases s <;> cases i <;> rfl

@[simp] lemma setrefp_liveHandles (w : World) (s i : Option Nat) :
    (mp_image_setrefp w s i).1.liveHandles = w.liveHandles := by
  cases s <;> cases i <;> rfl

@[simp] lemma setrefp_nextFb (w : World) (s i : Option Nat) :
    (mp_image_setrefp w s i).1.nextFb = w.nextFb := by
  cases s <;> cases i <;> rfl

@[simp] lemma setrefp_nextBlob (w : World) (s i : Option Nat) :
    (mp_image_setrefp w s i).1.nextBlob = w.nextBlob := by
  cases s <;> cases i <;> rfl

@[simp] lemma setrefp_liveBlobs (w : World) (s i : Option Nat) :
    (mp_image_setrefp w s i).1.liveBlobs = w.liveBlobs := by
  cases s <;> cases i <;> rfl

@[simp] lemma setrefp_snd (w : World) (s i : Option Nat) :
    (mp_image_setrefp w s i).2 = i := by
  cases s <;> cases i <;> rfl

lemma destroy_liveFbs (w : World) (fb : DrmPrimeFramebuffer) :
    (drm_prime_destroy_framebuffer w fb).1.liveFbs
      = if fb.fb_id = 0 then w.liveFbs else w.liveFbs.erase fb.fb_id := by
  unfold drm_prime_destroy_framebuffer
  split <;> rfl

lemma destroy_liveHandles (w : World) (fb : DrmPrimeFramebuffer) :
    (drm_prime_destroy_framebuffer w fb).1.liveHandles
      = if fb.fb_id = 0 then w.liveHandles else w.liveHandles - fb.nHandles := by
  unfold drm_prime_destroy_framebuffer
  split <;> rfl

@[simp] lemma destroy_nextFb (w : World) (fb : DrmPrimeFramebuffer) :
    (drm_prime_destroy_framebuffer w fb).1.nextFb = w.nextFb := by
  unfold drm_prime_destroy_framebuffer
  split <;> rfl

@[simp] lemma destroy_nextBlob (w : World) (fb : DrmPrimeFramebuffer) :
    (drm_prime_destroy_framebuffer w fb).1.nextBlob = w.nextBlob := by
  unfold drm_prime_destroy_framebuffer
  split <;> rfl

@[simp] lemma destroy_liveBlobs (w : World) (fb : DrmPrimeFramebuffer) :
    (drm_prime_destroy_framebuffer w fb).1.liveBlobs = w.liveBlobs := by
  unfold drm_prime_destroy_framebuffer
  split <;> rfl

lemma destroy_events (w : World) (fb : DrmPrimeFramebuffer) :
    (drm_prime_destroy_framebuffer w fb).2
      = if fb.fb_id = 0 then [] else [Ev.fbDestroyed fb.fb_id] := by
  unfold drm_prime_destroy_framebuffer
  split <;> rfl

@[simp] lemma scf_old_fb (p : Priv) (w : World) (fr : Option DrmFrame) :
    (set_current_frame p w fr).1.old_frame.fb = p.last_frame.fb := by
  cases fr <;> rfl

@[simp] lemma scf_last_fb (p : Priv) (w : World) (fr : Option DrmFrame) :
    (set_current_frame p w fr).1.last_frame.fb = p.current_frame.fb := by
  cases fr <;> rfl

@[simp] lemma scf_cur_fb_none (p : Priv) (w : World) :
    (set_current_frame p w none).1.current_frame.fb = zeroFb := rfl

@[simp] lemma scf_cur_fb_some (p : Priv) (w : World) (f : DrmFrame) :
    (set_current_frame p w (some f)).1.current_frame.fb = f.fb := rfl

@[simp] lemma scf_old_image (p : Priv) (w : World) (fr : Option DrmFrame) :
    (set_current_frame p w fr).1.old_frame.image = p.last_frame.image := by
  cases fr <;> simp [set_current_frame]

@[simp] lemma scf_last_image (p : Priv) (w : World) (fr : Option DrmFrame) :
    (set_current_frame p w fr).1.last_frame.image = p.current_frame.image := by
  cases fr <;> simp [set_current_frame]

@[simp] lemma scf_cur_image_none (p : Priv) (w : World) :
    (set_current_frame p w none).1.current_frame.image = none := by
  simp [set_current_frame]

@[simp] lemma scf_cur_image_some (p : Priv) (w : World) (f : DrmFrame) :
    (set_current_frame p w (some f)).1.current_frame.image = f.image := by
  simp [set_current_frame]

@[simp] lemma scf_hdr (p : Priv) (w : World) (fr : Option DrmFrame) :
    (set_current_frame p w fr).1.hdr_metadata = p.hdr_metadata := by
  cases fr <;> rfl

@[simp] lemma scf_hdr_blob (p : Priv) (w : World) (fr : Option DrmFrame) :
    (set_current_frame p w fr).1.hdr_blob_id = p.hdr_blob_id := by
  cases fr <;> rfl

@[simp] lemma scf_panel (p : Priv) (w : World) (fr : Option DrmFrame) :
    (set_current_frame p w fr).1.panel_metadata = p.panel_metadata := by
  cases fr <;> rfl

lemma scf_liveFbs (p : Priv) (w : World) (fr : Option DrmFrame) :
    (set_current_frame p w fr).2.1.liveFbs
      = if p.old_frame.fb.fb_id = 0 then w.liveFbs
        else w.liveFbs.erase p.old_frame.fb.fb_id := by
  cases fr <;> simp [set_current_frame, destroy_liveFbs]

lemma scf_liveHandles (p : Priv) (w : World) (fr : Option DrmFrame) :
    (set_current_frame p w fr).2.1.liveHandles
      = if p.old_frame.fb.fb_id = 0 then w.liveHandles
        else w.liveHandles - p.old_frame.fb.nHandles := by
  cases fr <;> simp [set_current_frame, destroy_liveHandles]

@[simp] lemma scf_nextFb (p : Priv) (w : World) (fr : Option DrmFrame) :
    (set_current_frame p w fr).2.1.nextFb = w.nextFb := by
  cases fr <;> simp [set_current_frame]

@[simp] lemma scf_nextBlob (p : Priv) (w : World) (fr : Option DrmFrame) :
    (set_current_frame p w fr).2.1.nextBlob = w.nextBlob := by
  cases fr <;> simp [set_current_frame]

@[simp] lemma scf_liveBlobs (p : Priv) (w : World) (fr : Option DrmFrame) :
    (set_current_frame p w fr).2.1.liveBlobs = w.liveBlobs := by
  cases fr <;> simp [set_current_frame]

lemma scf_events (p : Priv) (w : World) (fr : Option DrmFrame) :
    (set_current_frame p w fr).2.2
      = if p.old_frame.fb.fb_id = 0 then [] else [Ev.fbDestroyed p.old_frame.fb.fb_id] := by
  cases fr <;> simp [set_current_frame, destroy_events]

/-- The nonzero framebuffer ids held by the ring. -/
def ringIds (p : Priv) : List Nat :=
  [p.current_frame.fb.fb_id, p.last_frame.fb.fb_id, p.old_frame.fb.fb_id].filter (· ≠ 0)

/-- Total imported handle count held by the ring. -/
def sumHandles (p : Priv) : Nat :=
  p.current_frame.fb.nHandles + p.last_frame.fb.nHandles + p.old_frame.fb.nHandles

/-- A ring slot is sound with respect to the handle bound `H` and the
fresh-id supply `n`. -/
def fbOk (H : Nat) (f : DrmFrame) (n : Nat) : Prop :=
  (f.fb.fb_id = 0 → f.fb.nHandles = 0) ∧ f.fb.nHandles ≤ H ∧ (f.fb.fb_id ≠ 0 → f.fb.fb_id < n)

/-- Occupied ring slots hold pairwise distinct framebuffers. -/
def ringDistinct (p : Priv) : Prop :=
  (p.current_frame.fb.fb_id ≠ 0 →
    p.current_frame.fb.fb_id ≠ p.last_frame.fb.fb_id ∧
    p.current_frame.fb.fb_id ≠ p.old_frame.fb.fb_id) ∧
  (p.last_frame.fb.fb_id ≠ 0 → p.last_frame.fb.fb_id ≠ p.old_frame.fb.fb_id)

/-- Invariant tying the DRM world to the generation ring: the live
framebuffers are exactly the ring's, the live handle count is the ring's
total, every slot respects the per-frame handle bound `H`, and ids are
distinct and below the fresh supply. -/
def RingInv (H : Nat) (p : Priv) (w : World) : Prop :=
  fbOk H p.current_frame w.nextFb ∧ fbOk H p.last_frame w.nextFb ∧ fbOk H p.old_frame w.nextFb ∧
  ringDistinct p ∧
  0 < w.nextFb ∧
  w.liveFbs = (ringIds p).toFinset ∧
  w.liveHandles = sumHandles p

lemma mem_ringIds (p : Priv) (a : Nat) :
    a ∈ ringIds p ↔
      (a = p.current_frame.fb.fb_id ∨ a = p.last_frame.fb.fb_id ∨ a = p.old_frame.fb.fb_id)
      ∧ a ≠ 0 := by
  simp [ringIds, List.mem_filter, and_comm]

/-- Shifting the ring with an empty (or no) incoming frame preserves the
invariant. -/
lemma scf_inv_keep (H : Nat) (p : Priv) (w : World) (fr : Option DrmFrame)
    (hinv : RingInv H p w)
    (hfr : fr = none ∨ ∃ i, fr = some ⟨zeroFb, i⟩) :
    RingInv H (set_current_frame p w fr).1 (set_current_frame p w fr).2.1 := by
  obtain ⟨hcur, hlast, hold, hdist, hpos, hlive, hhand⟩ := hinv
  have hcurfb : (set_current_frame p w fr).1.current_frame.fb = zeroFb := by
    rcases hfr with h | ⟨i, h⟩ <;> subst h <;> simp
  have hc0 : (set_current_frame p w fr).1.current_frame.fb.fb_id = 0 := by
    rw [hcurfb]
    rfl
  have hcn : (set_current_frame p w fr).1.current_frame.fb.nHandles = 0 := by
    rw [hcurfb]
    rfl
  obtain ⟨hd1, hd2⟩ := hdist
  refine ⟨?_, ?_, ?_, ?_, ?_, ?_, ?_⟩
  · exact ⟨fun _ => hcn, by rw [hcn]; omega, fun h => absurd hc0 h⟩
  · rw [fbOk]
    simp only [scf_last_fb, scf_nextFb]
    exact hcur
  · rw [fbOk]
    simp only [scf_old_fb, scf_nextFb]
    exact hlast
  · constructor
    · intro h
      exact absurd hc0 h
    · intro h
      simp only [scf_last_fb, scf_old_fb] at h ⊢
      exact (hd1 h).1
  · simpa using hpos
  · rw [scf_liveFbs, hlive]
    by_cases hoz : p.old_frame.fb.fb_id = 0
    · rw [if_pos hoz]
      ext a
      simp only [List.mem_toFinset, mem_ringIds, hc0, scf_last_fb, scf_old_fb]
      omega
    · rw [if_neg hoz]
      ext a
      simp only [Finset.mem_erase, List.mem_toFinset, mem_ringIds, hc0, scf_last_fb, scf_old_fb]
      omega
  · rw [scf_liveHandles, hhand]
    by_cases hoz : p.old_frame.fb.fb_id = 0
    · rw [if_pos hoz]
      have h0 : p.old_frame.fb.nHandles = 0 := hold.1 hoz
      simp only [sumHandles, hcn, scf_last_fb, scf_old_fb]
      omega
    · rw [if_neg hoz]
      simp only [sumHandles, hcn, scf_last_fb, scf_old_fb]
      omega

/-- Installing a freshly created framebuffer (fresh id, in-bound handle
count) re-establishes the invariant on the shifted ring. -/
lemma scf_inv_fresh (H : Nat) (p : Priv) (w : World) (f : DrmFrame)
    (hcur : fbOk H p.current_frame f.fb.fb_id)
    (hlast : fbOk H p.last_frame f.fb.fb_id)
    (hold : fbOk H p.old_frame f.fb.fb_id)
    (hdist : ringDistinct p)
    (hfb0 : f.fb.fb_id ≠ 0)
    (hfbH : f.fb.nHandles ≤ H)
    (hlive : w.liveFbs = insert f.fb.fb_id (ringIds p).toFinset)
    (hhand : w.liveHandles = sumHandles p + f.fb.nHandles)
    (hnext : w.nextFb = f.fb.fb_id + 1) :
    RingInv H (set_current_frame p w (some f)).1 (set_current_frame p w (some f)).2.1 := by
  obtain ⟨hd1, hd2⟩ := hdist
  obtain ⟨hcur1, hcur2, hcur3⟩ := hcur
  obtain ⟨hlast1, hlast2, hlast3⟩ := hlast
  obtain ⟨hold1, hold2, hold3⟩ := hold
  refine ⟨?_, ?_, ?_, ?_, ?_, ?_, ?_⟩
  · refine ⟨fun h => absurd h hfb0, by simpa using hfbH, fun _ => ?_⟩
    simp only [scf_cur_fb_some, scf_nextFb, hnext]
    omega
  · rw [fbOk]
    simp only [scf_last_fb, scf_nextFb, hnext]
    exact ⟨hcur1, hcur2, fun h => by have := hcur3 h; omega⟩
  · rw [fbOk]
    simp only [scf_old_fb, scf_nextFb, hnext]
    exact ⟨hlast1, hlast2, fun h => by have := hlast3 h; omega⟩
  · constructor
    · intro _
      simp only [scf_cur_fb_some, scf_last_fb, scf_old_fb]
      constructor
      · intro hc
        by_cases hcz : p.current_frame.fb.fb_id = 0
        · exact hfb0 (hc.trans hcz)
        · have := hcur3 hcz
          omega
      · intro hc
        by_cases hlz : p.last_frame.fb.fb_id = 0
        · exact hfb0 (hc.trans hlz)
        · have := hlast3 hlz
          omega
    · intro h
      simp only [scf_last_fb, scf_old_fb] at h ⊢
      exact (hd1 h).1
  · simp only [scf_nextFb, hnext]
    omega
  · rw [scf_liveFbs, hlive]
    have hcb : p.current_frame.fb.fb_id ≠ 0 → p.current_frame.fb.fb_id < f.fb.fb_id := hcur3
    have hlb : p.last_frame.fb.fb_id ≠ 0 → p.last_frame.fb.fb_id < f.fb.fb_id := hlast3
    have hob : p.old_frame.fb.fb_id ≠ 0 → p.old_frame.fb.fb_id < f.fb.fb_id := hold3
    by_cases hoz : p.old_frame.fb.fb_id = 0
    · rw [if_pos hoz]
      ext a
      simp only [Finset.mem_insert, List.mem_toFinset, mem_ringIds, scf_cur_fb_some,
        scf_last_fb, scf_old_fb]
      omega
    · rw [if_neg hoz]
      ext a
      simp only [Finset.mem_erase, Finset.mem_insert, List.mem_toFinset, mem_ringIds,
        scf_cur_fb_some, scf_last_fb, scf_old_fb]
      omega
  · rw [scf_liveHandles, hhand]
    by_cases hoz : p.old_frame.fb.fb_id = 0
    · rw [if_pos hoz]
      have h0 : p.old_frame.fb.nHandles = 0 := hold1 hoz
      simp only [sumHandles, scf_cur_fb_some, scf_last_fb, scf_old_fb]
      omega
    · rw [if_neg hoz]
      simp only [sumHandles, scf_cur_fb_some, scf_last_fb, scf_old_fb]
      omega

lemma ringWeight_scf_none (p : Priv) (w : World) :
    ringWeight (set_current_frame p w none).1
      = frameWeight p.current_frame + frameWeight p.last_frame := by
  simp only [ringWeight, frameWeight, scf_cur_fb_none, scf_last_fb, scf_old_fb, zeroFb]
  simp

/-- The drain loop preserves the ring invariant. -/
lemma drainGo_inv (H : Nat) (fuel : Nat) :
    ∀ (p : Priv) (w : World), RingInv H p w →
      RingInv H (drainGo fuel p w).1 (drainGo fuel p w).2.1 := by
  induction fuel with
  | zero =>
    intro p w hinv
    simpa [drainGo] using hinv
  | succ fl ih =>
    intro p w hinv
    by_cases h : p.old_frame.fb.fb_id = 0
    · simpa [drainGo, h] using hinv
    · simp only [drainGo, h, if_neg, ite_false]
      exact ih _ _ (scf_inv_keep H p w none hinv (Or.inl rfl))

/-- With a budget of at least `ringWeight p`, the drain loop exits through
its guard: afterwards the `old` slot is empty.  This certifies that the
budgeted `drainGo` is an exact model of the source's unbounded `while`. -/
lemma drainGo_exits_by_guard (fuel : Nat) :
    ∀ (p : Priv) (w : World), ringWeight p ≤ fuel →
      (drainGo fuel p w).1.old_frame.fb.fb_id = 0 := by
  induction fuel with
  | zero =>
    intro p w hw
    have h3 : frameWeight p.old_frame = 0 := by
      have := hw
      simp only [ringWeight] at this
      omega
    have : p.old_frame.fb.fb_id = 0 := by
      by_contra hne
      simp [frameWeight, hne] at h3
    simpa [drainGo] using this
  | succ fl ih =>
    intro p w hw
    by_cases h : p.old_frame.fb.fb_id = 0
    · simp [drainGo, h]
    · simp only [drainGo, h, if_neg, ite_false]
      apply ih
      rw [ringWeight_scf_none]
      have hfwold : frameWeight p.old_frame = 1 := by
        simp [frameWeight, h]
      have := hw
      simp only [ringWeight] at this
      omega

/-- A frame presentation (or end-of-stream drain) through `overlay_frame`
preserves the ring invariant, provided the frame's descriptor references at
most `H` memory objects. -/
lemma overlay_inv (H : Nat) (p : Priv) (w : World) (e : Env) (img : Option MpImage)
    (src dst : MpRect) (hinv : RingInv H p w)
    (hH : ∀ i d, img = some i → i.desc = some d → d.nObjects ≤ H) :
    RingInv H (overlay_frame p w e img src dst).priv
      (overlay_frame p w e img src dst).world := by
  cases he : e.drmParams with
  | false =>
    simpa [overlay_frame, he] using hinv
  | true =>
    cases img with
    | none =>
      simp only [overlay_frame, he, Bool.true_eq_false, if_neg, ite_false]
      have hd : RingInv H (drainLoop p w).1 (drainLoop p w).2.1 :=
        drainGo_inv H (ringWeight p) p w hinv
      rcases hm : (drainLoop p w).1.hdr_metadata with _ | md <;>
        simp only [hm] <;>
        exact scf_inv_keep H _ _ _ hd (Or.inr ⟨none, rfl⟩)
    | some i =>
      cases hdesc : i.desc with
      | none =>
        simp only [overlay_frame, he, Bool.true_eq_false, if_neg, ite_false, hdesc]
        exact scf_inv_keep H _ w _ hinv (Or.inr ⟨some i.id, rfl⟩)
      | some desc =>
        have hn : desc.nObjects ≤ H := hH i desc rfl hdesc
        obtain ⟨hcur, hlast, hold, hdist, hpos, hlive, hhand⟩ := hinv
        cases hcf : e.fbCreateFails with
        | true =>
          simp only [overlay_frame, he, Bool.true_eq_false, if_neg, ite_false, hdesc,
            drm_prime_create_framebuffer, hcf, if_pos]
          exact ⟨hcur, hlast, hold, hdist, hpos, hlive, hhand⟩
        | false =>
          cases hat : e.atomicRequest with
          | true =>
            simp only [overlay_frame, he, Bool.true_eq_false, if_neg, ite_false, hdesc,
              drm_prime_create_framebuffer, hcf, Bool.false_eq_true, if_false, hat, if_pos]
            rcases hm : p.hdr_metadata with _ | md <;> simp only [hm] <;>
              exact scf_inv_fresh H _ _ ⟨⟨w.nextFb, desc.nObjects⟩, some i.id⟩
                hcur hlast hold hdist (by show w.nextFb ≠ 0; omega) hn
                (by rw [hlive]; rfl) (by rw [hhand]; rfl) rfl
          | false =>
            cases hsp : e.setPlaneFails with
            | true =>
              simp only [overlay_frame, he, Bool.true_eq_false, if_neg, ite_false, hdesc,
                drm_prime_create_framebuffer, hcf, Bool.false_eq_true, if_false, hat, hsp,
                if_pos]
              have hfresh : w.nextFb ∉ (ringIds p).toFinset := by
                intro hmem
                rw [List.mem_toFinset, mem_ringIds] at hmem
                obtain ⟨h1, h2⟩ := hmem
                rcases h1 with h | h | h
                · have := hcur.2.2 (by omega)
                  omega
                · have := hlast.2.2 (by omega)
                  omega
                · have := hold.2.2 (by omega)
                  omega
              refine ⟨⟨hcur.1, hcur.2.1, fun h => ?_⟩, ⟨hlast.1, hlast.2.1, fun h => ?_⟩,
                ⟨hold.1, hold.2.1, fun h => ?_⟩, hdist, ?_, ?_, ?_⟩
              · show p.current_frame.fb.fb_id < _
                have := hcur.2.2 h
                simp only [drm_prime_destroy_framebuffer]
                split <;> simp <;> omega
              · show p.last_frame.fb.fb_id < _
                have := hlast.2.2 h
                simp only [drm_prime_destroy_framebuffer]
                split <;> simp <;> omega
              · show p.old_frame.fb.fb_id < _
                have := hold.2.2 h
                simp only [drm_prime_destroy_framebuffer]
                split <;> simp <;> omega
              · simp only [drm_prime_destroy_framebuffer]
                split <;> simp <;> omega
              · rw [destroy_liveFbs]
                simp only [if_neg (by omega : ¬ w.nextFb = 0)]
                rw [hlive, Finset.erase_insert hfresh]
                rfl
              · rw [destroy_liveHandles]
                simp only [if_neg (by omega : ¬ w.nextFb = 0)]
                rw [hhand]
                have hs : sumHandles p + desc.nObjects - desc.nObjects = sumHandles p := by
                  omega
                rw [hs]
                rfl
            | false =>
              simp only [overlay_frame, he, Bool.true_eq_false, if_neg, ite_false, hdesc,
                drm_prime_create_framebuffer, hcf, Bool.false_eq_true, if_false, hat, hsp]
              exact scf_inv_fresh H _ _ ⟨⟨w.nextFb, desc.nObjects⟩, some i.id⟩
                hcur hlast hold hdist (by show w.nextFb ≠ 0; omega) hn
                (by rw [hlive]; rfl) (by rw [hhand]; rfl) rfl

/-- The per-call bound: the presented frame's descriptor (if any) references
at most `H` memory objects. -/
def opHandleBound (H : Nat) (op : Op) : Bool :=
  match op.hw_image with
  | some i =>
    match i.desc with
    | some d => decide (d.nObjects ≤ H)
    | none => true
  | none => true

lemma opHandleBound_spec {H : Nat} {op : Op} (h : opHandleBound H op = true) :
    ∀ i d, op.hw_image = some i → i.desc = some d → d.nObjects ≤ H := by
  intro i d hi hd
  simp only [opHandleBound, hi, hd] at h
  exact of_decide_eq_true h

lemma runTrace_inv (H : Nat) (ops : List Op) :
    ∀ (p : Priv) (w : World), RingInv H p w →
      (∀ op ∈ ops, opHandleBound H op = true) →
      RingInv H (runTrace ops p w).1 (runTrace ops p w).2.1 := by
  induction ops with
  | nil =>
    intro p w hinv _
    simpa [runTrace] using hinv
  | cons op rest ih =>
    intro p w hinv hops
    simp only [runTrace]
    apply ih
    · exact overlay_inv H p w op.env op.hw_image op.src op.dst hinv
        (opHandleBound_spec (hops op (by simp)))
    · intro o ho
      exact hops o (by simp [ho])

/-- C1: over any sequence of `overlay_frame` calls from the initial state in
which every presented descriptor references at most `H` memory objects, the
number of live imported handles never exceeds ring depth (3) times `H`, and
at most 3 framebuffers are ever live: the evicted slot is released before
the new frame is installed, so resource usage stays bounded. -/
theorem ring_handle_bound (H : Nat) (panel : MpHdrStaticMetadata) (dispW dispH : Int)
    (crtc : Nat) (ops : List Op)
    (hH : ∀ op ∈ ops, opHandleBound H op = true) :
    (runTrace ops (initPriv panel dispW dispH crtc) initWorld).2.1.liveHandles ≤ 3 * H ∧
    (runTrace ops (initPriv panel dispW dispH crtc) initWorld).2.1.liveFbs.card ≤ 3 := by
  have hinit : RingInv H (initPriv panel dispW dispH crtc) initWorld := by
    refine ⟨?_, ?_, ?_, ?_, ?_, ?_, ?_⟩
    · exact ⟨fun _ => rfl, Nat.zero_le _, fun h => absurd rfl h⟩
    · exact ⟨fun _ => rfl, Nat.zero_le _, fun h => absurd rfl h⟩
    · exact ⟨fun _ => rfl, Nat.zero_le _, fun h => absurd rfl h⟩
    · exact ⟨fun h => absurd rfl h, fun h => absurd rfl h⟩
    · exact Nat.one_pos
    · rfl
    · rfl
  obtain ⟨hcur, hlast, hold, _hdist, _hpos, hlive, hhand⟩ :=
    runTrace_inv H ops _ _ hinit hH
  constructor
  · rw [hhand, sumHandles]
    have h1 := hcur.2.1
    have h2 := hlast.2.1
    have h3 := hold.2.1
    omega
  · rw [hlive]
    calc (ringIds _).toFinset.card ≤ (ringIds _).length := List.toFinset_card_le _
      _ ≤ 3 := List.length_filter_le _ _

/-- Fixed chromaticities standing in for the colorspace collaborator's
output in concrete runs. -/
def exPrims : CspPrimaries := ⟨⟨0, 0⟩, ⟨0, 0⟩, ⟨0, 0⟩, ⟨0, 0⟩⟩

/-- A decoded SDR frame whose descriptor references two memory objects. -/
def exImg (n : Nat) : MpImage := ⟨n, Trc.other, Trc.other, exPrims, some ⟨2⟩⟩

/-- A run where every native call succeeds, on the atomic path. -/
def exEnv : Env := ⟨true, true, none, false, false, true⟩

def exRect : MpRect := ⟨0, 0, 1920, 1080⟩

/-- Presenting frame `n`. -/
def exOp (n : Nat) : Op := ⟨exEnv, some (exImg n), exRect, exRect⟩

/-- The end-of-stream call (`hw_image == NULL`). -/
def eosOp : Op := ⟨exEnv, none, exRect, exRect⟩

/-- Witness for `ring_handle_bound`: its hypothesis holds for a concrete
four-frame sequence with two objects per frame, and the bound follows there
by applying the theorem. -/
theorem ring_handle_bound_witness :
    (∀ op ∈ [exOp 1, exOp 2, exOp 3, exOp 4], opHandleBound 2 op = true) ∧
    (runTrace [exOp 1, exOp 2, exOp 3, exOp 4]
      (initPriv zeroHdrMetadata 1280 800 5) initWorld).2.1.liveHandles ≤ 3 * 2 :=
  ⟨by decide,
   (ring_handle_bound 2 zeroHdrMetadata 1280 800 5 [exOp 1, exOp 2, exOp 3, exOp 4]
     (by decide)).1⟩

/-- C2 (bug evidence): presenting one frame and then presenting `none`
(end of stream) does disable the plane, but does NOT empty the generation
ring: the drain loop's guard inspects only the `old` slot — empty after a
single frame — so the call returns with frame 1's framebuffer still
installed in `last_frame`, its two imported handles still live, and the
decoded image still referenced. -/
theorem eos_leaves_ring_occupied :
    (runTrace [exOp 1, eosOp] (initPriv zeroHdrMetadata 1280 800 5) initWorld).1.last_frame.fb.fb_id
      = 1 ∧
    (runTrace [exOp 1, eosOp] (initPriv zeroHdrMetadata 1280 800 5) initWorld).1.last_frame.image
      = some 1 ∧
    (runTrace [exOp 1, eosOp] (initPriv zeroHdrMetadata 1280 800 5) initWorld).2.1.liveFbs
      = {1} ∧
    (runTrace [exOp 1, eosOp] (initPriv zeroHdrMetadata 1280 800 5) initWorld).2.1.liveHandles
      = 2 ∧
    (runTrace [exOp 1, eosOp] (initPriv zeroHdrMetadata 1280 800 5) initWorld).2.1.refs 1 = 1 ∧
    Ev.planeDisabled ∈ (runTrace [exOp 1, eosOp] (initPriv zeroHdrMetadata 1280 800 5) initWorld).2.2 := by
  refine ⟨?_, ?_, ?_, ?_, ?_, ?_⟩ <;> decide

/-- C3: if building the new frame's framebuffer fails, the whole frame
update is aborted with a failure code: the driver world (live framebuffers,
handles, blobs, reference counts) is exactly as before the call, every ring
slot of the previous generation is untouched, the HDR state is untouched,
and no property write or other native call is performed. -/
theorem failed_fb_leaves_prev_untouched (p : Priv) (w : World) (e : Env) (i : MpImage)
    (src dst : MpRect) (d : FrameDesc)
    (hdp : e.drmParams = true) (hcf : e.fbCreateFails = true) (hdesc : i.desc = some d) :
    (overlay_frame p w e (some i) src dst).ret = -1 ∧
    (overlay_frame p w e (some i) src dst).world = w ∧
    (overlay_frame p w e (some i) src dst).priv.current_frame = p.current_frame ∧
    (overlay_frame p w e (some i) src dst).priv.last_frame = p.last_frame ∧
    (overlay_frame p w e (some i) src dst).priv.old_frame = p.old_frame ∧
    (overlay_frame p w e (some i) src dst).priv.hdr_metadata = p.hdr_metadata ∧
    (overlay_frame p w e (some i) src dst).priv.hdr_blob_id = p.hdr_blob_id ∧
    (overlay_frame p w e (some i) src dst).props = [] ∧
    (overlay_frame p w e (some i) src dst).events = [] := by
  simp [overlay_frame, hdp, hdesc, drm_prime_create_framebuffer, hcf]

/-- An environment in which `drm_prime_create_framebuffer` fails. -/
def exEnvCreateFail : Env := ⟨true, true, none, true, false, true⟩

/-- Witness for `failed_fb_leaves_prev_untouched`: its hypotheses hold at a
concrete failing present, and the no-disturbance conclusion follows there by
applying the theorem. -/
theorem failed_fb_leaves_prev_untouched_witness :
    exEnvCreateFail.drmParams = true ∧ exEnvCreateFail.fbCreateFails = true ∧
    (exImg 1).desc = some ⟨2⟩ ∧
    (overlay_frame (initPriv zeroHdrMetadata 1280 800 5) initWorld exEnvCreateFail
      (some (exImg 1)) exRect exRect).ret = -1 :=
  ⟨rfl, rfl, rfl,
   (failed_fb_leaves_prev_untouched (initPriv zeroHdrMetadata 1280 800 5) initWorld
     exEnvCreateFail (exImg 1) exRect exRect ⟨2⟩ rfl rfl rfl).1⟩

/-- HDR-metadata lifecycle events (blob creation/destruction). -/
inductive HdrEv where
  | created (b : Nat)
  | destroyed (b : Nat)
deriving DecidableEq, Repr

def hdrEvOf : Ev → Option HdrEv
  | Ev.hdrBlobCreated b => some (HdrEv.created b)
  | Ev.hdrBlobDestroyed b => some (HdrEv.destroyed b)
  | _ => none

/-- The HDR lifecycle events of an event trace. -/
def hdrTrace (evs : List Ev) : List HdrEv := evs.filterMap hdrEvOf

/-- Validity of an HDR event trace from a given open-blob state: a creation
only when no metadata is live, a destruction only of the currently
published blob; returns the final open-blob state. -/
def altRes : Option Nat → List HdrEv → Option (Option Nat)
  | s, [] => some s
  | none, HdrEv.created b :: t => altRes (some b) t
  | some b, HdrEv.destroyed b2 :: t => if b2 = b then altRes none t else none
  | none, HdrEv.destroyed _ :: _ => none
  | some _, HdrEv.created _ :: _ => none

/-- The blob currently published for the stream's HdrMetadata, if any. -/
def hdrState (p : Priv) : Option Nat :=
  match p.hdr_metadata with
  | some _ => some p.hdr_blob_id
  | none => none

lemma altRes_append (s : Option Nat) (t u : List HdrEv) :
    altRes s (t ++ u) = (altRes s t).bind (fun s2 => altRes s2 u) := by
  induction t generalizing s with
  | nil => simp [altRes]
  | cons ev rest ih =>
    cases s with
    | none =>
      cases ev with
      | created b => simpa [altRes] using ih (some b)
      | destroyed b => simp [altRes]
    | some b =>
      cases ev with
      | created b2 => simp [altRes]
      | destroyed b2 =>
        by_cases h : b2 = b
        · simpa [altRes, h] using ih none
        · simp [altRes, h]

lemma hdrTrace_append (a b : List Ev) : hdrTrace (a ++ b) = hdrTrace a ++ hdrTrace b :=
  List.filterMap_append a b hdrEvOf

lemma hdrTrace_scf (p : Priv) (w : World) (fr : Option DrmFrame) :
    hdrTrace (set_current_frame p w fr).2.2 = [] := by
  rw [scf_events]
  split <;> rfl

lemma hdrTrace_destroy (w : World) (fb : DrmPrimeFramebuffer) :
    hdrTrace (drm_prime_destroy_framebuffer w fb).2 = [] := by
  rw [destroy_events]
  split <;> rfl

lemma hdrTrace_disable (ok : Bool) : hdrTrace (disable_video_plane ok) = [] := by
  unfold disable_video_plane
  split <;> rfl

lemma hdrTrace_drainGo (fuel : Nat) :
    ∀ (p : Priv) (w : World), hdrTrace (drainGo fuel p w).2.2 = [] := by
  induction fuel with
  | zero =>
    intro p w
    rfl
  | succ fl ih =>
    intro p w
    by_cases h : p.old_frame.fb.fb_id = 0
    · simp [drainGo, h, hdrTrace]
    · simp only [drainGo, h, if_neg, ite_false]
      rw [hdrTrace_append, hdrTrace_scf, ih]
      rfl

lemma drainGo_hdr (fuel : Nat) :
    ∀ (p : Priv) (w : World),
      (drainGo fuel p w).1.hdr_metadata = p.hdr_metadata ∧
      (drainGo fuel p w).1.hdr_blob_id = p.hdr_blob_id := by
  induction fuel with
  | zero =>
    intro p w
    exact ⟨rfl, rfl⟩
  | succ fl ih =>
    intro p w
    by_cases h : p.old_frame.fb.fb_id = 0
    · simp [drainGo, h]
    · simp only [drainGo, h, if_neg, ite_false]
      obtain ⟨h1, h2⟩ := ih (set_current_frame p w none).1 (set_current_frame p w none).2.1
      rw [h1, h2]
      simp

/-- Per-call characterization of the HDR metadata lifecycle: a call either
leaves the metadata and its published blob untouched (emitting no HDR
events), or — on a frame present when none exists yet — creates it exactly
once and publishes a blob for it, or — on end-of-stream when one exists —
destroys exactly the published blob and clears the state. -/
lemma overlay_hdr_cases (p : Priv) (w : World) (e : Env) (img : Option MpImage)
    (src dst : MpRect) :
    ((overlay_frame p w e img src dst).priv.hdr_metadata = p.hdr_metadata ∧
      (overlay_frame p w e img src dst).priv.hdr_blob_id = p.hdr_blob_id ∧
      hdrTrace (overlay_frame p w e img src dst).events = []) ∨
    (img ≠ none ∧ p.hdr_metadata = none ∧
      (overlay_frame p w e img src dst).priv.hdr_metadata.isSome = true ∧
      hdrTrace (overlay_frame p w e img src dst).events
        = [HdrEv.created (overlay_frame p w e img src dst).priv.hdr_blob_id]) ∨
    (img = none ∧ p.hdr_metadata.isSome = true ∧
      (overlay_frame p w e img src dst).priv.hdr_metadata = none ∧
      hdrTrace (overlay_frame p w e img src dst).events
        = [HdrEv.destroyed p.hdr_blob_id]) := by
  cases he : e.drmParams with
  | false =>
    left
    simp [overlay_frame, he, hdrTrace]
  | true =>
    cases img with
    | none =>
      simp only [overlay_frame, he, Bool.true_eq_false, if_neg, ite_false]
      obtain ⟨hd1, hd2⟩ := drainGo_hdr (ringWeight p) p w
      rcases hm : (drainLoop p w).1.hdr_metadata with _ | md
      · left
        simp only [hm]
        refine ⟨?_, ?_, ?_⟩
        · rw [scf_hdr]
          exact hd1
        · rw [scf_hdr_blob]
          exact hd2
        · rw [hdrTrace_append, hdrTrace_append, hdrTrace_append, hdrTrace_disable,
            hdrTrace_scf]
          rw [drainLoop] at hm ⊢
          rw [hdrTrace_drainGo]
          rfl
      · right
        right
        simp only [hm]
        refine ⟨trivial, ?_, ?_, ?_⟩
        · rw [drainLoop] at hm
          rw [← hd1, hm]
          rfl
        · rw [scf_hdr]
        · rw [hdrTrace_append, hdrTrace_append, hdrTrace_append, hdrTrace_disable,
            hdrTrace_scf]
          rw [drainLoop] at hm ⊢
          rw [hdrTrace_drainGo]
          simp only [List.nil_append, List.append_nil]
          simp [hdrTrace, hdrEvOf, hd2]
    | some i =>
      cases hdesc : i.desc with
      | none =>
        left
        simp only [overlay_frame, he, Bool.true_eq_false, if_neg, ite_false, hdesc]
        exact ⟨by rw [scf_hdr], by rw [scf_hdr_blob], hdrTrace_scf _ _ _⟩
      | some desc =>
        cases hcf : e.fbCreateFails with
        | true =>
          left
          simp only [overlay_frame, he, Bool.true_eq_false, if_neg, ite_false, hdesc,
            drm_prime_create_framebuffer, hcf, if_pos]
          exact ⟨trivial, trivial, rfl⟩
        | false =>
          cases hat : e.atomicRequest with
          | true =>
            simp only [overlay_frame, he, Bool.true_eq_false, if_neg, ite_false, hdesc,
              drm_prime_create_framebuffer, hcf, Bool.false_eq_true, if_false, hat, if_pos]
            rcases hm : p.hdr_metadata with _ | md
            · right
              left
              simp only [hm]
              refine ⟨by simp, trivial, ?_, ?_⟩
              · rw [scf_hdr]
                rfl
              · rw [hdrTrace_append, hdrTrace_scf, scf_hdr_blob]
                rfl
            · left
              simp only [hm]
              refine ⟨by rw [scf_hdr], by rw [scf_hdr_blob], ?_⟩
              rw [hdrTrace_append, hdrTrace_scf]
              rfl
          | false =>
            cases hsp : e.setPlaneFails with
            | true =>
              left
              simp only [overlay_frame, he, Bool.true_eq_false, if_neg, ite_false, hdesc,
                drm_prime_create_framebuffer, hcf, Bool.false_eq_true, if_false, hat, hsp,
                if_pos]
              exact ⟨trivial, trivial, hdrTrace_destroy _ _⟩
            | false =>
              left
              simp only [overlay_frame, he, Bool.true_eq_false, if_neg, ite_false, hdesc,
                drm_prime_create_framebuffer, hcf, Bool.false_eq_true, if_false, hat, hsp]
              refine ⟨by rw [scf_hdr], by rw [scf_hdr_blob], ?_⟩
              show hdrTrace (Ev.legacySetPlane _ :: _) = []
              rw [hdrTrace, List.filterMap_cons]
              exact hdrTrace_scf _ _ _

@[simp] lemma altRes_nil (s : Option Nat) : altRes s [] = some s := by
  cases s <;> rfl

lemma overlay_hdr_step (p : Priv) (w : World) (e : Env) (img : Option MpImage)
    (src dst : MpRect) :
    altRes (hdrState p) (hdrTrace (overlay_frame p w e img src dst).events)
      = some (hdrState (overlay_frame p w e img src dst).priv) := by
  rcases overlay_hdr_cases p w e img src dst with ⟨h1, h2, h3⟩ | ⟨_, h2, h3, h4⟩ |
    ⟨_, h2, h3, h4⟩
  · rw [h3]
    have hs : hdrState (overlay_frame p w e img src dst).priv = hdrState p := by
      unfold hdrState
      rw [h1, h2]
    rw [hs]
    exact altRes_nil _
  · rw [h4]
    have hs0 : hdrState p = none := by
      unfold hdrState
      rw [h2]
    rcases Option.isSome_iff_exists.mp h3 with ⟨md, hmd⟩
    have hs1 : hdrState (overlay_frame p w e img src dst).priv
        = some (overlay_frame p w e img src dst).priv.hdr_blob_id := by
      unfold hdrState
      rw [hmd]
    rw [hs0, hs1]
    rfl
  · rw [h4]
    rcases Option.isSome_iff_exists.mp h2 with ⟨md, hmd⟩
    have hs0 : hdrState p = some p.hdr_blob_id := by
      unfold hdrState
      rw [hmd]
    have hs1 : hdrState (overlay_frame p w e img src dst).priv = none := by
      unfold hdrState
      rw [h3]
    rw [hs0, hs1]
    simp [altRes]

lemma runTrace_hdr (ops : List Op) :
    ∀ (p : Priv) (w : World),
      altRes (hdrState p) (hdrTrace (runTrace ops p w).2.2)
        = some (hdrState (runTrace ops p w).1) := by
  induction ops with
  | nil =>
    intro p w
    simp [runTrace, hdrTrace]
  | cons op rest ih =>
    intro p w
    simp only [runTrace]
    rw [hdrTrace_append, altRes_append, overlay_hdr_step]
    exact ih _ _

/-- C5: the full lifecycle of the stream's HdrMetadata.
Part 1 (alternation): over any call sequence from the initial state the
creation/destruction trace is strictly alternating from the empty state —
created only when absent (so at most once per stream, never recreated
mid-stream), destroyed only when present and only the published blob, with
the final open blob matching the final state.
Part 2: a frame present never destroys the metadata.
Part 3 (creation occurs): a successfully presented atomic-path frame, when
no metadata exists yet, does create it — lazily, from that frame's
transfer characteristic — and publishes exactly one blob for it.
Part 4 (destruction occurs): an end-of-stream call always leaves the
metadata destroyed, emitting exactly one destruction — of the published
blob — when metadata existed and none otherwise.
Part 5 (immutability): a frame present after the metadata exists leaves it
and its published blob untouched. -/
theorem hdr_metadata_lifecycle :
    (∀ (panel : MpHdrStaticMetadata) (dispW dispH : Int) (crtc : Nat) (ops : List Op),
      altRes none
        (hdrTrace (runTrace ops (initPriv panel dispW dispH crtc) initWorld).2.2)
        = some (hdrState (runTrace ops (initPriv panel dispW dispH crtc) initWorld).1)) ∧
    (∀ (p : Priv) (w : World) (e : Env) (i : MpImage) (src dst : MpRect) (b : Nat),
      HdrEv.destroyed b ∉ hdrTrace (overlay_frame p w e (some i) src dst).events) ∧
    (∀ (p : Priv) (w : World) (e : Env) (i : MpImage) (src dst : MpRect) (d : FrameDesc),
      e.drmParams = true → e.atomicRequest = true → e.fbCreateFails = false →
      i.desc = some d → p.hdr_metadata = none →
      (overlay_frame p w e (some i) src dst).priv.hdr_metadata
        = some (get_hdr_metadata i) ∧
      hdrTrace (overlay_frame p w e (some i) src dst).events
        = [HdrEv.created (overlay_frame p w e (some i) src dst).priv.hdr_blob_id]) ∧
    (∀ (p : Priv) (w : World) (e : Env) (src dst : MpRect), e.drmParams = true →
      (overlay_frame p w e none src dst).priv.hdr_metadata = none ∧
      hdrTrace (overlay_frame p w e none src dst).events
        = (if p.hdr_metadata.isSome then [HdrEv.destroyed p.hdr_blob_id] else [])) ∧
    (∀ (p : Priv) (w : World) (e : Env) (i : MpImage) (src dst : MpRect)
      (md : MpHdrStaticMetadata), p.hdr_metadata = some md →
      (overlay_frame p w e (some i) src dst).priv.hdr_metadata = some md ∧
      (overlay_frame p w e (some i) src dst).priv.hdr_blob_id = p.hdr_blob_id) := by
  refine ⟨?_, ?_, ?_, ?_, ?_⟩
  · intro panel dispW dispH crtc ops
    have h := runTrace_hdr ops (initPriv panel dispW dispH crtc) initWorld
    have h0 : hdrState (initPriv panel dispW dispH crtc) = none := rfl
    rwa [h0] at h
  · intro p w e i src dst b
    rcases overlay_hdr_cases p w e (some i) src dst with ⟨_, _, h3⟩ | ⟨_, _, _, h4⟩ |
      ⟨hcontr, _, _, _⟩
    · rw [h3]
      simp
    · rw [h4]
      simp
    · exact absurd hcontr (by simp)
  · intro p w e i src dst d hdp hat hcf hdesc hm
    constructor
    · simp only [overlay_frame, hdp, Bool.true_eq_false, if_neg, ite_false, hdesc,
        drm_prime_create_framebuffer, hcf, Bool.false_eq_true, if_false, hat, if_pos, hm]
      rw [scf_hdr]
    · simp only [overlay_frame, hdp, Bool.true_eq_false, if_neg, ite_false, hdesc,
        drm_prime_create_framebuffer, hcf, Bool.false_eq_true, if_false, hat, if_pos, hm]
      rw [hdrTrace_append, hdrTrace_scf, scf_hdr_blob]
      rfl
  · intro p w e src dst hdp
    simp only [overlay_frame, hdp, Bool.true_eq_false, if_neg, ite_false]
    obtain ⟨hd1, hd2⟩ := drainGo_hdr (ringWeight p) p w
    rcases hm : (drainLoop p w).1.hdr_metadata with _ | md
    · have hp : p.hdr_metadata = none := by
        rw [drainLoop] at hm
        rw [← hd1]
        exact hm
      simp only [hm]
      constructor
      · rw [scf_hdr]
        exact hm
      · rw [hp]
        simp only [Option.isSome_none, Bool.false_eq_true, if_false]
        rw [hdrTrace_append, hdrTrace_append, hdrTrace_append, hdrTrace_disable,
          hdrTrace_scf]
        rw [drainLoop] at hm ⊢
        rw [hdrTrace_drainGo]
        rfl
    · have hp : p.hdr_metadata = some md := by
        rw [drainLoop] at hm
        rw [← hd1]
        exact hm
      simp only [hm]
      constructor
      · rw [scf_hdr]
      · rw [hp]
        simp only [Option.isSome_some, if_pos]
        rw [hdrTrace_append, hdrTrace_append, hdrTrace_append, hdrTrace_disable,
          hdrTrace_scf]
        rw [drainLoop] at hm ⊢
        rw [hdrTrace_drainGo]
        simp only [List.nil_append, List.append_nil]
        simp [hdrTrace, hdrEvOf, hd2]
  · intro p w e i src dst md hmd
    rcases overlay_hdr_cases p w e (some i) src dst with ⟨h1, h2, _⟩ | ⟨_, h2, _, _⟩ |
      ⟨hcontr, _, _, _⟩
    · rw [h1, h2, hmd]
      exact ⟨rfl, rfl⟩
    · rw [hmd] at h2
      cases h2
    · exact absurd hcontr (by simp)

/-- A state mid-stream, with HdrMetadata already created and published as
blob 1. -/
def exPrivHdr : Priv :=
  {initPriv zeroHdrMetadata 1280 800 5 with
    hdr_metadata := some (get_hdr_metadata (exImg 1)), hdr_blob_id := 1}

/-- Witness for `hdr_metadata_lifecycle`: at concrete states, part 3 shows
the first atomic-path frame creates the metadata, part 4 shows end of
stream destroys exactly the published blob, and part 5 shows a later frame
leaves the created metadata untouched. -/
theorem hdr_metadata_lifecycle_witness :
    exEnv.drmParams = true ∧ exEnv.atomicRequest = true ∧ exEnv.fbCreateFails = false ∧
    (exImg 1).desc = some ⟨2⟩ ∧
    (initPriv zeroHdrMetadata 1280 800 5).hdr_metadata = none ∧
    exPrivHdr.hdr_metadata = some (get_hdr_metadata (exImg 1)) ∧
    (overlay_frame (initPriv zeroHdrMetadata 1280 800 5) initWorld exEnv (some (exImg 1))
        exRect exRect).priv.hdr_metadata = some (get_hdr_metadata (exImg 1)) ∧
    ((overlay_frame exPrivHdr initWorld exEnv none exRect exRect).priv.hdr_metadata = none ∧
     hdrTrace (overlay_frame exPrivHdr initWorld exEnv none exRect exRect).events
       = (if exPrivHdr.hdr_metadata.isSome then [HdrEv.destroyed exPrivHdr.hdr_blob_id]
          else [])) ∧
    (overlay_frame exPrivHdr initWorld exEnv (some (exImg 2)) exRect exRect).priv.hdr_metadata
      = some (get_hdr_metadata (exImg 1)) :=
  ⟨rfl, rfl, rfl, rfl, rfl, rfl,
   (hdr_metadata_lifecycle.2.2.1 (initPriv zeroHdrMetadata 1280 800 5) initWorld exEnv
     (exImg 1) exRect exRect ⟨2⟩ rfl rfl rfl rfl rfl).1,
   hdr_metadata_lifecycle.2.2.2.1 exPrivHdr initWorld exEnv exRect exRect rfl,
   (hdr_metadata_lifecycle.2.2.2.2 exPrivHdr initWorld exEnv (exImg 2) exRect exRect
     (get_hdr_metadata (exImg 1)) rfl).1⟩

/-- C6: on a successfully presented frame in the atomic path (after which
HdrMetadata exists), if the panel metadata read at init indicates HDR
capability (non-zero EOTF) then the published blob reference is attached to
the connector and the transfer-function enumeration to the plane; otherwise
only a traditional-gamma flag (SDR or HDR-without-metadata) is attached to
the plane and the connector-level blob reference is never attached. -/
theorem hdr_signaling_per_panel (p : Priv) (w : World) (e : Env) (i : MpImage)
    (src dst : MpRect) (d : FrameDesc)
    (hdp : e.drmParams = true) (hat : e.atomicRequest = true)
    (hcf : e.fbCreateFails = false) (hdesc : i.desc = some d) :
    ∃ md, (overlay_frame p w e (some i) src dst).priv.hdr_metadata = some md ∧
      (if p.panel_metadata.eotf ≠ 0 then
        (⟨DrmObj.connector, "HDR_SOURCE_METADATA",
           ((overlay_frame p w e (some i) src dst).priv.hdr_blob_id : Int)⟩ : PropWrite)
            ∈ (overlay_frame p w e (some i) src dst).props ∧
        (⟨DrmObj.videoPlane, "EOTF", (md.eotf : Int)⟩ : PropWrite)
            ∈ (overlay_frame p w e (some i) src dst).props
       else
        (⟨DrmObj.videoPlane, "EOTF",
           ((if md.eotf ≠ 0 then MP_TRADITIONAL_GAMMA_HDR
             else MP_TRADITIONAL_GAMMA_SDR) : Int)⟩ : PropWrite)
            ∈ (overlay_frame p w e (some i) src dst).props ∧
        ∀ v : Int, (⟨DrmObj.connector, "HDR_SOURCE_METADATA", v⟩ : PropWrite)
            ∉ (overlay_frame p w e (some i) src dst).props) := by
  rcases hm : p.hdr_metadata with _ | md0
  · refine ⟨get_hdr_metadata i, ?_, ?_⟩
    · simp only [overlay_frame, hdp, Bool.true_eq_false, if_neg, ite_false, hdesc,
        drm_prime_create_framebuffer, hcf, Bool.false_eq_true, if_false, hat, if_pos, hm]
      rw [scf_hdr]
    · by_cases hp : p.panel_metadata.eotf ≠ 0
      · rw [if_pos hp]
        constructor <;>
          simp [overlay_frame, hdp, hdesc, drm_prime_create_framebuffer, hcf, hat, hm, hp]
      · rw [if_neg hp]
        refine ⟨?_, ?_⟩
        · simp [overlay_frame, hdp, hdesc, drm_prime_create_framebuffer, hcf, hat, hm, hp]
        · intro v
          simp [overlay_frame, hdp, hdesc, drm_prime_create_framebuffer, hcf, hat, hm, hp]
  · refine ⟨md0, ?_, ?_⟩
    · simp only [overlay_frame, hdp, Bool.true_eq_false, if_neg, ite_false, hdesc,
        drm_prime_create_framebuffer, hcf, Bool.false_eq_true, if_false, hat, if_pos, hm]
      rw [scf_hdr]
    · by_cases hp : p.panel_metadata.eotf ≠ 0
      · rw [if_pos hp]
        constructor <;>
          simp [overlay_frame, hdp, hdesc, drm_prime_create_framebuffer, hcf, hat, hm, hp]
      · rw [if_neg hp]
        refine ⟨?_, ?_⟩
        · simp [overlay_frame, hdp, hdesc, drm_prime_create_framebuffer, hcf, hat, hm, hp]
        · intro v
          simp [overlay_frame, hdp, hdesc, drm_prime_create_framebuffer, hcf, hat, hm, hp]

/-- Witness for `hdr_signaling_per_panel`: its hypotheses hold at a concrete
SDR-panel present, and the no-blob-to-SDR-panel conclusion follows there by
applying the theorem. -/
theorem hdr_signaling_per_panel_witness :
    exEnv.drmParams = true ∧ exEnv.atomicRequest = true ∧ exEnv.fbCreateFails = false ∧
    (exImg 1).desc = some ⟨2⟩ ∧
    (∃ md, (overlay_frame (initPriv zeroHdrMetadata 1280 800 5) initWorld exEnv
        (some (exImg 1)) exRect exRect).priv.hdr_metadata = some md ∧
      (if (initPriv zeroHdrMetadata 1280 800 5).panel_metadata.eotf ≠ 0 then
        (⟨DrmObj.connector, "HDR_SOURCE_METADATA",
           ((overlay_frame (initPriv zeroHdrMetadata 1280 800 5) initWorld exEnv
              (some (exImg 1)) exRect exRect).priv.hdr_blob_id : Int)⟩ : PropWrite)
            ∈ (overlay_frame (initPriv zeroHdrMetadata 1280 800 5) initWorld exEnv
                (some (exImg 1)) exRect exRect).props ∧
        (⟨DrmObj.videoPlane, "EOTF", (md.eotf : Int)⟩ : PropWrite)
            ∈ (overlay_frame (initPriv zeroHdrMetadata 1280 800 5) initWorld exEnv
                (some (exImg 1)) exRect exRect).props
       else
        (⟨DrmObj.videoPlane, "EOTF",
           ((if md.eotf ≠ 0 then MP_TRADITIONAL_GAMMA_HDR
             else MP_TRADITIONAL_GAMMA_SDR) : Int)⟩ : PropWrite)
            ∈ (overlay_frame (initPriv zeroHdrMetadata 1280 800 5) initWorld exEnv
                (some (exImg 1)) exRect exRect).props ∧
        ∀ v : Int, (⟨DrmObj.connector, "HDR_SOURCE_METADATA", v⟩ : PropWrite)
            ∉ (overlay_frame (initPriv zeroHdrMetadata 1280 800 5) initWorld exEnv
                (some (exImg 1)) exRect exRect).props)) :=
  ⟨rfl, rfl, rfl, rfl,
   hdr_signaling_per_panel (initPriv zeroHdrMetadata 1280 800 5) initWorld exEnv (exImg 1)
     exRect exRect ⟨2⟩ rfl rfl rfl rfl⟩

/-!
## Initialization of the DRM overlay path (`init` in hwdec_drmprime_drm.c)
-/

/-- Outcomes of the native calls made during `init`. -/
structure InitEnv where
  drmParams : Bool                        -- "drm_params" native resource present
  ctxOk : Bool                            -- drm_atomic_create_context succeeds
  crtcInfo : Option (Int × Int)           -- drmModeGetCrtc result (hdisplay, vdisplay)
  getCapFails : Bool                      -- drmGetCap(DRM_CAP_PRIME, ...) returns < 0
  hasPrime : Nat                          -- the capability value a successful query reports
  panelBlob : Option MpHdrStaticMetadata  -- "HDR_PANEL_METADATA" connector blob
  disableAllocOk : Bool
deriving DecidableEq, Repr

/-- Observable calls made during `init`. -/
inductive InitEv where
  | capProbe
  | planeDisabled
  | uninitCalled
deriving DecidableEq, Repr

/-- Result of `init`: return code, the initialized private data (when
successful) and the events. -/
structure InitResult where
  ret : Int
  priv : Option Priv
  events : List InitEv

/-- `init` from hwdec_drmprime_drm.c, for an option-configured crtc id.
The prime capability is probed exactly once via `drmGetCap`; only the
query's return code is tested (`< 0`), the reported value `hasPrime` is
never consulted. -/
def drm_init (e : InitEnv) (crtc : Nat) : InitResult :=
  if e.drmParams = false then
    -- failed to retrieve DRM fd from native display: goto err
    ⟨-1, none, [InitEv.uninitCalled]⟩
  else if e.ctxOk = false then
    -- failed to retrieve DRM atomic context: goto err
    ⟨-1, none, [InitEv.uninitCalled]⟩
  else
    let dims : Int × Int :=
      match e.crtcInfo with
      | some wh => wh
      | none => (0, 0)
    if e.getCapFails then
      -- "Card does not support prime handles.": goto err
      ⟨-1, none, [InitEv.capProbe, InitEv.uninitCalled]⟩
    else
      let panel : MpHdrStaticMetadata :=
        match e.panelBlob with
        | some blob => blob
        | none => zeroHdrMetadata
      ⟨0, some (initPriv panel dims.1 dims.2 crtc),
       [InitEv.capProbe, InitEv.planeDisabled]⟩

/-- C8 (bug evidence): with every native call succeeding but the probed
capability value reporting NO prime support (`has_prime = 0`), `init`
still returns success — the code checks only the query's return code and
ignores the probed value, despite its own "Card does not support prime
handles" error message; the capability is probed exactly once. -/
theorem init_ignores_prime_cap_value :
    (drm_init ⟨true, true, some (1280, 800), false, 0, none, true⟩ 5).ret = 0 ∧
    (⟨true, true, some (1280, 800), false, 0, none, true⟩ : InitEnv).hasPrime = 0 ∧
    (drm_init ⟨true, true, some (1280, 800), false, 0, none, true⟩ 5).events.count
      InitEv.capProbe = 1 ∧
    (drm_init ⟨true, true, some (1280, 800), false, 0, none, true⟩ 5).priv
      = some (initPriv zeroHdrMetadata 1280 800 5) := by
  refine ⟨rfl, rfl, rfl, rfl⟩

/-!
## The drmprime-wayland variant (hwdec_drmprime_wayland.c)
-/

/-- Result of the wayland variant's `overlay_frame`: the return code,
whether the `fail` label was reached, and whether any presentation side
effect was performed. -/
structure WlOvResult where
  ret : Int
  failReached : Bool
  presented : Bool
deriving DecidableEq, Repr

/-- `overlay_frame` from hwdec_drmprime_wayland.c: the body only logs and
then returns 0 unconditionally; no statement precedes the `fail:` label's
`return ret`, so it is unreachable and nothing is ever presented. -/
def wl_overlay_frame (_hw_image : Option MpImage) (_src _dst : MpRect)
    (_newframe : Bool) : WlOvResult :=
  ⟨0, false, false⟩

/-- Result of the wayland variant's `init`. -/
structure WlInitResult where
  ret : Int
  errReached : Bool
  uninitCalled : Bool
deriving DecidableEq, Repr

/-- `init` from hwdec_drmprime_wayland.c: logs and returns 0
unconditionally; the `err:` label (which would call `uninit`) is
unreachable. -/
def wl_init : WlInitResult :=
  ⟨0, false, false⟩

/-- C9: in the drmprime-wayland variant, `overlay_frame` returns 0 for
every input without presenting anything and without reaching its `fail`
label, and `init` returns 0 without reaching its `err` label or calling
`uninit`. -/
theorem wayland_noop_success :
    (∀ (img : Option MpImage) (src dst : MpRect) (nf : Bool),
      wl_overlay_frame img src dst nf = ⟨0, false, false⟩) ∧
    wl_init = ⟨0, false, false⟩ :=
  ⟨fun _ _ _ _ => rfl, rfl⟩

end Mpv
